import Mathlib

set_option maxHeartbeats 1000000

/- Rational arithmetic must evaluate on concrete inputs (witnesses and
counterexamples run the embedded simulator); re-allow unfolding of the
rational-number primitives, which Batteries seals for elaboration
performance. -/
attribute [local semireducible] Rat.add Rat.mul Rat.sub Rat.inv Rat.ofScientific

/-!
Verification development for the BRONZESIM simulator
(single-file Python implementation, `src/src/bronzesim.py`).

The simulator is shallowly embedded: Python machine integers are modeled as
`Nat`/`Int` with explicit `% 2^32` / `% 2^64` reductions exactly where the
source applies its `& MASK32` / `& MASK64` masks (all hashed quantities in the
source are non-negative, for which masking and reduction agree), and Python
floats are modeled as exact rationals (`ℚ`); the float literals of the source
are exactly representable as rationals and every arithmetic operation on them
is mirrored term for term.  Mutation of the Python objects becomes explicit
state passing.
-/

namespace Bronzesim

/-! ## Constants (`bronzesim.py`, "Constants and enums") -/

def FEET_PER_MILE : Nat := 5280
def CELL_FEET : Nat := 3
def WORLD_MILES_X : Nat := 30
def WORLD_MILES_Y : Nat := 30
def WORLD_FEET_X : Nat := WORLD_MILES_X * FEET_PER_MILE
def WORLD_FEET_Y : Nat := WORLD_MILES_Y * FEET_PER_MILE
def WORLD_CELLS_X : Nat := WORLD_FEET_X / CELL_FEET
def WORLD_CELLS_Y : Nat := WORLD_FEET_Y / CELL_FEET
def CHUNK_SIZE : Nat := 64
def CHUNK_CELLS : Nat := CHUNK_SIZE * CHUNK_SIZE

def TAG_COAST : Nat := 1
def TAG_BEACH : Nat := 2
def TAG_FOREST : Nat := 4
def TAG_MARSH : Nat := 8
def TAG_HILL : Nat := 16
def TAG_RIVER : Nat := 32
def TAG_FIELD : Nat := 64
def TAG_SETTLE : Nat := 128

def RES_FISH : Nat := 0
def RES_GRAIN : Nat := 1
def RES_WOOD : Nat := 2
def RES_CLAY : Nat := 3
def RES_COPPER : Nat := 4
def RES_TIN : Nat := 5
def RES_FIRE : Nat := 6
def RES_PLANT_FIBER : Nat := 7
def RES_CATTLE : Nat := 8
def RES_SHEEP : Nat := 9
def RES_PIG : Nat := 10
def RES_CHARCOAL : Nat := 11
def RES_RELIGION : Nat := 12
def RES_TRIBALISM : Nat := 13
def RES_MAX : Nat := 14

def ITEM_FISH : Nat := 0
def ITEM_GRAIN : Nat := 1
def ITEM_WOOD : Nat := 2
def ITEM_CLAY : Nat := 3
def ITEM_COPPER : Nat := 4
def ITEM_TIN : Nat := 5
def ITEM_BRONZE : Nat := 6
def ITEM_TOOL : Nat := 7
def ITEM_POT : Nat := 8
def ITEM_MAX : Nat := 9

def SEASON_SPRING : Nat := 0
def SEASON_SUMMER : Nat := 1
def SEASON_AUTUMN : Nat := 2
def SEASON_WINTER : Nat := 3
def SEASON_ANY : Nat := 255

def CMP_ANY : Nat := 0
def CMP_GT : Nat := 1
def CMP_LT : Nat := 2
def CMP_GE : Nat := 3
def CMP_LE : Nat := 4

def OP_MOVE_TO : Nat := 0
def OP_GATHER : Nat := 1
def OP_CRAFT : Nat := 2
def OP_TRADE : Nat := 3
def OP_REST : Nat := 4
def OP_ROAM : Nat := 5

/-! ## Deterministic hashing / rng (`brz_splitmix64` .. `rng_f01`)

`& MASK64` on a non-negative value is `% 2^64`, likewise for 32 bits. -/

def brz_splitmix64 (x0 : Nat) : Nat :=
  let x1 := (x0 + 0x9e3779b97f4a7c15) % 2 ^ 64
  let x2 := ((x1 ^^^ (x1 >>> 30)) * 0xbf58476d1ce4e5b9) % 2 ^ 64
  let x3 := ((x2 ^^^ (x2 >>> 27)) * 0x94d049bb133111eb) % 2 ^ 64
  (x3 ^^^ (x3 >>> 31)) % 2 ^ 64

def brz_hash_u32 (a b c : Nat) : Nat :=
  brz_splitmix64 (((a % 2 ^ 32) <<< 32) ^^^ (b % 2 ^ 32) ^^^ ((c % 2 ^ 32) <<< 16)) % 2 ^ 32

def rng_u32 (seed a b c : Nat) : Nat :=
  brz_hash_u32 ((a ^^^ seed) % 2 ^ 32) (b % 2 ^ 32) (c % 2 ^ 32)

/-- `rng_f01`: `(rng_u32 .. & 0xFFFFFF) / 0x1000000`, a 24-bit uniform in `[0,1)`. -/
def rng_f01 (seed a b c : Nat) : ℚ :=
  ((rng_u32 seed a b c % 2 ^ 24 : Nat) : ℚ) / (2 ^ 24 : ℚ)

def clamp_i32 (v lo hi : Int) : Int :=
  if v < lo then lo else if hi < v then hi else v

/-- `clamp_u8` from the source (`if v < 0: 0; if v > 255: 255; v`). -/
def clamp_u8 (v : Int) : Int :=
  if v < 0 then 0 else if 255 < v then 255 else v

/-! ## Procedural world generation -/

/-- `noise01(g, x, y, salt) = brz_hash_u32(x, y, g.seed ^ salt) & 0xFF`.
The `WorldGen` record of the source holds only the seed, passed directly. -/
def noise01 (seed x y salt : Nat) : Nat :=
  brz_hash_u32 x y ((seed ^^^ salt) % 2 ^ 32) % 2 ^ 8

def is_coast_cell (x y : Nat) : Bool :=
  x < 2 || y < 2 || WORLD_CELLS_X - 2 ≤ x || WORLD_CELLS_Y - 2 ≤ y

/-- `world_cell_tags`: the terrain tag bitfield of cell `(x, y)`.
The unused `settlement_count` parameter of the source is dropped
(the source discards it with `_ = settlement_count`). -/
def world_cell_tags (seed x y : Nat) : Nat :=
  let tags0 : Nat := if is_coast_cell x y then TAG_COAST else 0
  -- beach near coast edge
  let tags1 : Nat :=
    if tags0 &&& TAG_COAST = 0 ∧
        (x < 3 ∨ y < 3 ∨ WORLD_CELLS_X - 4 < x ∨ WORLD_CELLS_Y - 4 < y) ∧
        noise01 seed x y 0xBEEF1234 < 140 then
      tags0 ||| TAG_BEACH
    else tags0
  -- forest/hill/marsh
  let n1 := noise01 seed x y 0x1111A11A
  let n2 := noise01 seed x y 0x2222B22B
  let n3 := noise01 seed x y 0x3333C33C
  let tags2 := if 150 < n1 then tags1 ||| TAG_FOREST else tags1
  let tags3 := if 200 < n2 then tags2 ||| TAG_HILL else tags2
  let tags4 := if 215 < n3 then tags3 ||| TAG_MARSH else tags3
  -- crude rivers
  let rv := noise01 seed (x / 8) (y / 8) 0x52A17B3D
  let tags5 := if 245 < rv then tags4 ||| TAG_RIVER else tags4
  -- deterministic settlement clusters
  let sx := (x / 2000) * 2000 + 1000
  let sy := (y / 2000) * 2000 + 1000
  let sc := noise01 seed sx sy 0x5E771EAD
  let dx : Int := (x : Int) - (sx : Int)
  let dy : Int := (y : Int) - (sy : Int)
  let d2 : Int := dx * dx + dy * dy
  let tags6 := if 240 < sc ∧ d2 < 70 * 70 then tags5 ||| TAG_SETTLE else tags5
  let tags7 := if 240 < sc ∧ d2 < 250 * 250 then tags6 ||| TAG_FIELD else tags6
  tags7

/-- `world_cell_res0`: reference per-cell initial density formula. -/
def world_cell_res0 (seed x y rk tags : Nat) : Int :=
  let base : Nat := noise01 seed x y 0x9999DDDD
  if rk = RES_FISH then
    (if tags &&& TAG_COAST ≠ 0 then clamp_u8 ((120 + base / 2 : Nat) : Int) else 0)
  else if rk = RES_GRAIN then
    (if tags &&& TAG_FIELD ≠ 0 then clamp_u8 ((80 + base / 3 : Nat) : Int) else 0)
  else if rk = RES_WOOD then
    (if tags &&& TAG_FOREST ≠ 0 then clamp_u8 ((90 + base / 3 : Nat) : Int) else 0)
  else if rk = RES_CLAY then
    (if tags &&& TAG_RIVER ≠ 0 ∨ tags &&& TAG_MARSH ≠ 0 then
      clamp_u8 ((60 + base / 4 : Nat) : Int) else 0)
  else if rk = RES_COPPER then
    (if tags &&& TAG_HILL ≠ 0 then (if 240 < base then 40 else 5) else 0)
  else if rk = RES_TIN then
    (if tags &&& TAG_HILL ≠ 0 then (if 250 < base then 25 else 0) else 0)
  else if rk = RES_FIRE then
    (if tags &&& TAG_SETTLE ≠ 0 then clamp_u8 ((180 + base / 4 : Nat) : Int) else 0)
  else if rk = RES_PLANT_FIBER then
    (if tags &&& TAG_MARSH ≠ 0 ∨ tags &&& TAG_FIELD ≠ 0 then
      clamp_u8 ((70 + base / 3 : Nat) : Int) else 0)
  else if rk = RES_CATTLE then
    (if tags &&& TAG_FIELD ≠ 0 then clamp_u8 ((40 + base / 4 : Nat) : Int) else 0)
  else if rk = RES_SHEEP then
    (if tags &&& TAG_FIELD ≠ 0 then clamp_u8 ((35 + base / 4 : Nat) : Int) else 0)
  else if rk = RES_PIG then
    (if tags &&& TAG_FIELD ≠ 0 then clamp_u8 ((30 + base / 4 : Nat) : Int) else 0)
  else if rk = RES_CHARCOAL then
    (if tags &&& TAG_FOREST ≠ 0 then clamp_u8 ((25 + base / 5 : Nat) : Int) else 0)
  else if rk = RES_RELIGION then
    (if tags &&& TAG_SETTLE ≠ 0 then clamp_u8 ((60 + base / 5 : Nat) : Int) else 0)
  else if rk = RES_TRIBALISM then
    (if tags &&& TAG_SETTLE ≠ 0 then clamp_u8 ((20 + base / 8 : Nat) : Int) else 0)
  else 0

/-- `world_season_kind(day)`. -/
def world_season_kind (day : Nat) : Nat :=
  let d := day % 360
  if d < 90 then SEASON_SPRING
  else if d < 180 then SEASON_SUMMER
  else if d < 270 then SEASON_AUTUMN
  else SEASON_WINTER

/-! ## Chunks and the optimized chunk materializer -/

/-- A materialized chunk.  The source stores flat arrays of length 4096 indexed
by `idx = iy*64 + ix`; those arrays are embedded as functions of the index. -/
structure Chunk where
  cx : Nat
  cy : Nat
  terrain : Nat → Nat
  res : Nat → Nat → Int

/-- Per-cell body of `ChunkCache._generate_chunk`: the sequence of conditional
writes into the 14 resource planes for one cell, as a function of the cell's
tags and its shared `base` noise.  Every plane starts at 0; `pf1`/`pf2` mirror
the two-stage plant-fiber writes (field first, then marsh-only-if-still-zero). -/
def genCellRes (tags base : Nat) (rk : Nat) : Int :=
  let fish : Int :=
    if tags &&& TAG_COAST ≠ 0 then clamp_u8 ((120 + (base >>> 1) : Nat) : Int) else 0
  let grain : Int :=
    if tags &&& TAG_FIELD ≠ 0 then clamp_u8 ((80 + base / 3 : Nat) : Int) else 0
  let pf1 : Int :=
    if tags &&& TAG_FIELD ≠ 0 then clamp_u8 ((70 + base / 3 : Nat) : Int) else 0
  let cattle : Int :=
    if tags &&& TAG_FIELD ≠ 0 then clamp_u8 ((40 + base / 4 : Nat) : Int) else 0
  let sheep : Int :=
    if tags &&& TAG_FIELD ≠ 0 then clamp_u8 ((35 + base / 4 : Nat) : Int) else 0
  let pig : Int :=
    if tags &&& TAG_FIELD ≠ 0 then clamp_u8 ((30 + base / 4 : Nat) : Int) else 0
  let wood : Int :=
    if tags &&& TAG_FOREST ≠ 0 then clamp_u8 ((90 + base / 3 : Nat) : Int) else 0
  let charcoal : Int :=
    if tags &&& TAG_FOREST ≠ 0 then clamp_u8 ((25 + base / 5 : Nat) : Int) else 0
  let clay : Int :=
    if tags &&& TAG_RIVER ≠ 0 ∨ tags &&& TAG_MARSH ≠ 0 then
      clamp_u8 ((60 + base / 4 : Nat) : Int) else 0
  let pf2 : Int :=
    if tags &&& TAG_RIVER ≠ 0 ∨ tags &&& TAG_MARSH ≠ 0 then
      (if tags &&& TAG_MARSH ≠ 0 ∧ pf1 = 0 then clamp_u8 ((70 + base / 3 : Nat) : Int)
       else pf1)
    else pf1
  let copper : Int :=
    if tags &&& TAG_HILL ≠ 0 then (if 240 < base then 40 else 5) else 0
  let tin : Int :=
    if tags &&& TAG_HILL ≠ 0 then (if 250 < base then 25 else 0) else 0
  let fire : Int :=
    if tags &&& TAG_SETTLE ≠ 0 then clamp_u8 ((180 + base / 4 : Nat) : Int) else 0
  let religion : Int :=
    if tags &&& TAG_SETTLE ≠ 0 then clamp_u8 ((60 + base / 5 : Nat) : Int) else 0
  let tribalism : Int :=
    if tags &&& TAG_SETTLE ≠ 0 then clamp_u8 ((20 + base / 8 : Nat) : Int) else 0
  if rk = RES_FISH then fish
  else if rk = RES_GRAIN then grain
  else if rk = RES_WOOD then wood
  else if rk = RES_CLAY then clay
  else if rk = RES_COPPER then copper
  else if rk = RES_TIN then tin
  else if rk = RES_FIRE then fire
  else if rk = RES_PLANT_FIBER then pf2
  else if rk = RES_CATTLE then cattle
  else if rk = RES_SHEEP then sheep
  else if rk = RES_PIG then pig
  else if rk = RES_CHARCOAL then charcoal
  else if rk = RES_RELIGION then religion
  else if rk = RES_TRIBALISM then tribalism
  else 0

/-- The single shared base noise of `_generate_chunk`:
`brz_hash_u32(wx & MASK32, wy & MASK32, (seed ^ 0x9999DDDD) & MASK32) & 0xFF`. -/
def genBase (seed wx wy : Nat) : Nat :=
  brz_hash_u32 (wx % 2 ^ 32) (wy % 2 ^ 32) ((seed ^^^ 0x9999DDDD) % 2 ^ 32) % 2 ^ 8

/-- `ChunkCache._generate_chunk`: the optimized materializer.  The source loops
`iy, ix` over `0..63` writing index `idx = iy*64 + ix` of each array for world
cell `(cx*64 + ix, cy*64 + iy)`; as a function of `idx` the cell is
`(cx*64 + idx % 64, cy*64 + idx / 64)`, which agrees for every `idx < 4096`. -/
def generate_chunk (seed cx cy : Nat) : Chunk :=
  { cx := cx
    cy := cy
    terrain := fun idx =>
      world_cell_tags seed (cx * CHUNK_SIZE + idx % 64) (cy * CHUNK_SIZE + idx / 64)
    res := fun rk idx =>
      let wx := cx * CHUNK_SIZE + idx % 64
      let wy := cy * CHUNK_SIZE + idx / 64
      genCellRes (world_cell_tags seed wx wy) (genBase seed wx wy) rk }

/-! ## Chunk cache (LRU).  The `OrderedDict` is embedded as an association
list in LRU-to-MRU order: the head is the least recently used entry. -/

abbrev CacheSt := List ((Nat × Nat) × Chunk)

def cacheFind (st : CacheSt) (k : Nat × Nat) : Option Chunk :=
  (st.find? (fun e => e.1 = k)).map (fun e => e.2)

/-- Remove the (unique, under the no-duplicate-keys invariant) entry with key
`k`; used to model `OrderedDict.move_to_end`. -/
def cacheErase (st : CacheSt) (k : Nat × Nat) : CacheSt :=
  st.eraseP (fun e => decide (e.1 = k))

/-- `ChunkCache.get_chunk`: hit moves the entry to the MRU end; miss
materializes, appends at the MRU end, and pops the LRU head when the size
exceeds `max_chunks`. -/
def get_chunk (seed max_chunks : Nat) (st : CacheSt) (cx cy : Nat) :
    Chunk × CacheSt :=
  match cacheFind st (cx, cy) with
  | some ch => (ch, cacheErase st (cx, cy) ++ [((cx, cy), ch)])
  | none =>
    let ch := generate_chunk seed cx cy
    let st1 := st ++ [((cx, cy), ch)]
    let st2 := if max_chunks < st1.length then st1.tail else st1
    (ch, st2)

/-- `ChunkCache.get_cell`. -/
def get_cell (seed max_chunks : Nat) (st : CacheSt) (x y : Nat) :
    (Chunk × Nat) × CacheSt :=
  let cx := x / CHUNK_SIZE
  let cy := y / CHUNK_SIZE
  let (ch, st') := get_chunk seed max_chunks st cx cy
  ((ch, (y % CHUNK_SIZE) * CHUNK_SIZE + (x % CHUNK_SIZE)), st')

/-- Iterated cell lookups (threading the cache state). -/
def runCells (seed max_chunks : Nat) (st : CacheSt) : List (Nat × Nat) → CacheSt
  | [] => st
  | (x, y) :: rest => runCells seed max_chunks (get_cell seed max_chunks st x y).2 rest

/-! ## Claim C3: the optimized materializer refines the per-cell reference -/

theorem clamp_u8_pos {v : Int} (h : 0 < v) : 0 < clamp_u8 v := by
  unfold clamp_u8; split_ifs <;> omega

theorem genBase_eq_noise01 (seed x y : Nat) :
    genBase seed x y = noise01 seed x y 0x9999DDDD := by
  simp [genBase, noise01, brz_hash_u32, Nat.mod_mod]

/-- The two-stage plant-fiber writes (field first, then marsh only if the cell
is still zero) coincide with the reference `marsh or field` formula whenever
the written value is positive. -/
theorem plant_fiber_eq (t : Nat) (v : Int) (hv : 0 < v) :
    (if t &&& TAG_RIVER ≠ 0 ∨ t &&& TAG_MARSH ≠ 0 then
       (if t &&& TAG_MARSH ≠ 0 ∧ (if t &&& TAG_FIELD ≠ 0 then v else 0) = 0 then v
        else (if t &&& TAG_FIELD ≠ 0 then v else 0))
     else (if t &&& TAG_FIELD ≠ 0 then v else 0))
      = (if t &&& TAG_MARSH ≠ 0 ∨ t &&& TAG_FIELD ≠ 0 then v else 0) := by
  by_cases hf : t &&& TAG_FIELD = 0 <;> by_cases hm : t &&& TAG_MARSH = 0 <;>
    by_cases hr : t &&& TAG_RIVER = 0 <;>
    simp [hf, hm, hr, hv.ne']

/-- Per-cell equivalence of the optimized write sequence with the reference
formula, for every tag bitfield and every base noise value. -/
theorem genCellRes_eq_res0 (seed x y rk : Nat) (hrk : rk < RES_MAX)
    (tags : Nat) :
    genCellRes tags (noise01 seed x y 0x9999DDDD) rk
      = world_cell_res0 seed x y rk tags := by
  rw [RES_MAX] at hrk
  interval_cases rk
  · rfl
  · rfl
  · rfl
  · rfl
  · rfl
  · rfl
  · rfl
  · -- the plant-fiber plane
    exact plant_fiber_eq tags
      (clamp_u8 ((70 + noise01 seed x y 0x9999DDDD / 3 : Nat) : Int))
      (clamp_u8_pos (by positivity))
  · rfl
  · rfl
  · rfl
  · rfl
  · rfl
  · rfl

/-- Claim C3: for every seed, chunk coordinate, cell of the chunk and resource
kind among the 14 kinds, the density stored by the optimized chunk
materializer (`ChunkCache._generate_chunk`) equals the per-cell reference
formula `world_cell_res0(seed, x, y, rk, tags)` with
`tags = world_cell_tags(seed, x, y)`, and the stored terrain equals
`world_cell_tags`; generating the same chunk twice yields identical terrain
and resource data. -/
theorem C3_generate_chunk_refines (seed cx cy ix iy rk : Nat)
    (hix : ix < 64) (hiy : iy < 64) (hrk : rk < RES_MAX) :
    ((generate_chunk seed cx cy).terrain (iy * 64 + ix)
        = world_cell_tags seed (cx * CHUNK_SIZE + ix) (cy * CHUNK_SIZE + iy))
    ∧ ((generate_chunk seed cx cy).res rk (iy * 64 + ix)
        = world_cell_res0 seed (cx * CHUNK_SIZE + ix) (cy * CHUNK_SIZE + iy) rk
            (world_cell_tags seed (cx * CHUNK_SIZE + ix) (cy * CHUNK_SIZE + iy)))
    ∧ generate_chunk seed cx cy = generate_chunk seed cx cy := by
  have hmod : (iy * 64 + ix) % 64 = ix := by omega
  have hdiv : (iy * 64 + ix) / 64 = iy := by omega
  refine ⟨?_, ?_, rfl⟩
  · simp only [generate_chunk, hmod, hdiv]
  · simp only [generate_chunk, hmod, hdiv, genBase_eq_noise01]
    exact genCellRes_eq_res0 seed _ _ rk hrk _

/-! ## Claim C9: LRU cache invariants -/

/-- Keys of a cache state, in LRU-to-MRU order. -/
def cacheKeys (st : CacheSt) : List (Nat × Nat) := st.map Prod.fst

/-- The cache invariant: each key resident at most once, size bounded by
`max_chunks`. -/
def CacheInv (max_chunks : Nat) (st : CacheSt) : Prop :=
  (cacheKeys st).Nodup ∧ st.length ≤ max_chunks

theorem cacheFind_none_iff (st : CacheSt) (k : Nat × Nat) :
    cacheFind st k = none ↔ ∀ e ∈ st, e.1 ≠ k := by
  simp [cacheFind, List.find?_eq_none]

theorem cacheFind_none_not_mem {st : CacheSt} {k : Nat × Nat}
    (h : cacheFind st k = none) : k ∉ cacheKeys st := by
  rw [cacheFind_none_iff] at h
  simp only [cacheKeys, List.mem_map]
  rintro ⟨e, he, rfl⟩
  exact h e he rfl

theorem cacheFind_some_mem {st : CacheSt} {k : Nat × Nat} {ch : Chunk}
    (h : cacheFind st k = some ch) : k ∈ cacheKeys st := by
  simp only [cacheFind, Option.map_eq_some'] at h
  obtain ⟨e, he, rfl⟩ := h
  have h1 := List.find?_some he
  have h2 := List.mem_of_find?_eq_some he
  simp only [decide_eq_true_eq] at h1
  subst h1
  exact List.mem_map_of_mem Prod.fst h2

theorem cacheErase_of_mem (st : CacheSt) (k : Nat × Nat)
    (hnd : (cacheKeys st).Nodup) (hmem : k ∈ cacheKeys st) :
    (cacheKeys (cacheErase st k)).Nodup ∧ k ∉ cacheKeys (cacheErase st k) ∧
      (cacheErase st k).length + 1 = st.length := by
  induction st with
  | nil => simp [cacheKeys] at hmem
  | cons e t ih =>
    by_cases hek : e.1 = k
    · have herase : cacheErase (e :: t) k = t := by
        simp [cacheErase, List.eraseP_cons, hek]
      subst hek
      simp only [cacheKeys, List.map_cons, List.nodup_cons] at hnd
      refine ⟨?_, ?_, ?_⟩ <;> simp [herase, cacheKeys, hnd.1, hnd.2]
    · have herase : cacheErase (e :: t) k = e :: cacheErase t k := by
        simp [cacheErase, List.eraseP_cons, hek]
      simp only [cacheKeys, List.map_cons, List.nodup_cons] at hnd
      have hmem' : k ∈ cacheKeys t := by
        simp only [cacheKeys, List.map_cons, List.mem_cons] at hmem
        rcases hmem with h | h
        · exact absurd h.symm hek
        · exact h
      obtain ⟨ihnd, ihk, ihlen⟩ := ih hnd.2 hmem'
      have hsub : List.Sublist (cacheKeys (cacheErase t k)) (cacheKeys t) :=
        (List.eraseP_sublist t).map Prod.fst
      refine ⟨?_, ?_, ?_⟩
      · simp only [herase, cacheKeys, List.map_cons, List.nodup_cons]
        exact ⟨fun hc => hnd.1 (hsub.mem hc), ihnd⟩
      · simp only [herase, cacheKeys, List.map_cons, List.mem_cons, not_or]
        exact ⟨fun hc => hek hc.symm, ihk⟩
      · simp only [herase, List.length_cons]
        omega

theorem get_chunk_inv (seed max_chunks : Nat) (st : CacheSt) (cx cy : Nat)
    (hmax : 1 ≤ max_chunks) (h : CacheInv max_chunks st) :
    CacheInv max_chunks (get_chunk seed max_chunks st cx cy).2 := by
  obtain ⟨hnd, hlen⟩ := h
  unfold get_chunk
  cases hfind : cacheFind st (cx, cy) with
  | some ch =>
    obtain ⟨hnd', hk', hlen'⟩ :=
      cacheErase_of_mem st (cx, cy) hnd (cacheFind_some_mem hfind)
    constructor
    · simp only [cacheKeys, List.map_append, List.map_cons, List.map_nil]
      simp [List.nodup_append, hnd', hk', cacheKeys] at *
      tauto
    · simp only [List.length_append, List.length_cons, List.length_nil]
      omega
  | none =>
    have hk : (cx, cy) ∉ cacheKeys st := cacheFind_none_not_mem hfind
    have hnd1 : (cacheKeys (st ++ [((cx, cy), generate_chunk seed cx cy)])).Nodup := by
      simp only [cacheKeys, List.map_append, List.map_cons, List.map_nil]
      rw [List.nodup_append]
      refine ⟨by simpa [cacheKeys] using hnd, List.nodup_singleton _, ?_⟩
      intro a ha hb
      simp only [List.mem_singleton] at hb
      subst hb
      exact hk (by simpa [cacheKeys] using ha)
    simp only []
    split
    · constructor
      · exact hnd1.sublist ((List.tail_sublist _).map Prod.fst)
      · simp only [List.length_tail, List.length_append, List.length_cons,
          List.length_nil]
        omega
    · rename_i hfull
      simp only [List.length_append, List.length_cons, List.length_nil] at hfull
      exact ⟨hnd1, by simp; omega⟩

theorem runCells_inv (seed max_chunks : Nat) (hmax : 1 ≤ max_chunks)
    (ops : List (Nat × Nat)) (st : CacheSt) (h : CacheInv max_chunks st) :
    CacheInv max_chunks (runCells seed max_chunks st ops) := by
  induction ops generalizing st with
  | nil => exact h
  | cons op rest ih =>
    obtain ⟨x, y⟩ := op
    exact ih _ (get_chunk_inv seed max_chunks st (x / CHUNK_SIZE) (y / CHUNK_SIZE)
      hmax h)

/-- Claim C9: the chunk cache holds each key at most once and never exceeds
`max_chunks` entries after any sequence of cell lookups; a hit moves the entry
to the MRU end; an insertion into a full cache evicts exactly the LRU head;
and a lookup that misses (e.g. after eviction) always returns the same pure
`generate_chunk` result, so re-lookup of an evicted chunk yields identical
contents. -/
theorem C9_cache_lru (seed max_chunks : Nat) (st : CacheSt) (cx cy : Nat)
    (hmax : 1 ≤ max_chunks) (hinv : CacheInv max_chunks st) :
    CacheInv max_chunks (get_chunk seed max_chunks st cx cy).2
    ∧ (∀ ch0, cacheFind st (cx, cy) = some ch0 →
        (get_chunk seed max_chunks st cx cy).1 = ch0 ∧
        (get_chunk seed max_chunks st cx cy).2
          = cacheErase st (cx, cy) ++ [((cx, cy), ch0)])
    ∧ (cacheFind st (cx, cy) = none →
        (get_chunk seed max_chunks st cx cy).1 = generate_chunk seed cx cy ∧
        (st.length = max_chunks →
          (get_chunk seed max_chunks st cx cy).2
            = st.tail ++ [((cx, cy), generate_chunk seed cx cy)]))
    ∧ (∀ st2 : CacheSt, cacheFind st (cx, cy) = none →
        cacheFind st2 (cx, cy) = none →
        (get_chunk seed max_chunks st2 cx cy).1
          = (get_chunk seed max_chunks st cx cy).1)
    ∧ (∀ ops : List (Nat × Nat),
        CacheInv max_chunks (runCells seed max_chunks [] ops)) := by
  refine ⟨get_chunk_inv seed max_chunks st cx cy hmax hinv, ?_, ?_, ?_, ?_⟩
  · intro ch0 hfind
    simp [get_chunk, hfind]
  · intro hfind
    constructor
    · simp [get_chunk, hfind]
    · intro hfull
      have hne : st ≠ [] := by
        intro hc; rw [hc] at hfull; simp at hfull; omega
      have htail : (st ++ [((cx, cy), generate_chunk seed cx cy)]).tail
          = st.tail ++ [((cx, cy), generate_chunk seed cx cy)] := by
        cases st with
        | nil => exact absurd rfl hne
        | cons a t => rfl
      simp only [get_chunk, hfind, List.length_append, List.length_cons,
        List.length_nil]
      rw [if_pos (by omega), htail]
  · intro st2 h1 h2
    simp [get_chunk, h1, h2]
  · intro ops
    exact runCells_inv seed max_chunks hmax ops [] ⟨by simp [cacheKeys], by simp⟩

/-- Witness for C9 at a concrete input: the empty cache with capacity 1. -/
theorem C9_cache_lru_witness :
    (1 ≤ 1 ∧ CacheInv 1 ([] : CacheSt)) ∧
      CacheInv 1 (get_chunk 0 1 ([] : CacheSt) 0 0).2 :=
  ⟨⟨le_refl 1, by simp [CacheInv, cacheKeys]⟩,
    (C9_cache_lru 0 1 [] 0 0 (le_refl 1) ⟨by simp [cacheKeys], by simp⟩).1⟩

/-- Witness for C3 at a concrete input. -/
theorem C3_generate_chunk_refines_witness :
    (0 : Nat) < 64 ∧ (3 : Nat) < RES_MAX ∧
    ((generate_chunk 1337 10 10).res 3 (0 * 64 + 0)
        = world_cell_res0 1337 (10 * CHUNK_SIZE + 0) (10 * CHUNK_SIZE + 0) 3
            (world_cell_tags 1337 (10 * CHUNK_SIZE + 0) (10 * CHUNK_SIZE + 0))) := by
  refine ⟨by decide, by decide, ?_⟩
  exact (C3_generate_chunk_refines 1337 10 10 0 0 3 (by decide) (by decide)
    (by decide)).2.1

/-! ## DSL runtime structures (`Condition` .. `VocationTable`) -/

/-- A rule condition.  The source keeps three parallel lists
`inv_item/inv_cmp/inv_value`, always appended to in lockstep and only consumed
zipped (`zip` in `cond_eval`); they are embedded as one list of triples. -/
structure Condition where
  has_hunger : Bool := false
  hunger_threshold : ℚ := 0
  has_fatigue : Bool := false
  fatigue_threshold : ℚ := 0
  season_eq : Nat := SEASON_ANY
  inv : List (Nat × Nat × Int) := []
  has_prob : Bool := false
  prob : ℚ := 0
deriving DecidableEq

structure OpDef where
  kind : Nat
  arg_i : Int := 0
  arg_j : Nat := 0
deriving DecidableEq

structure TaskDef where
  name : String
  ops : List OpDef := []
deriving DecidableEq

structure RuleDef where
  name : String
  cond : Condition
  task_name : String
  weight : Int
deriving DecidableEq

structure VocationDef where
  name : String
  tasks : List TaskDef := []
  rules : List RuleDef := []
deriving DecidableEq

/-- `VocationTable.find`: index of the vocation with the given name, else -1. -/
def vocFindAux (name : String) : List VocationDef → Nat → Int
  | [], _ => -1
  | v :: vs, i => if v.name = name then (i : Int) else vocFindAux name vs (i + 1)

def vocFind (tv : List VocationDef) (name : String) : Int := vocFindAux name tv 0

/-- `VocationTable.get`: the vocation at index `vid` when `0 ≤ vid < len`. -/
def vocGet (tv : List VocationDef) (vid : Int) : Option VocationDef :=
  if 0 ≤ vid ∧ vid < (tv.length : Int) then tv[vid.toNat]? else none

/-! ## Identifier maps (`RESOURCE_MAP`, `ITEM_MAP`, `TAG_MAP`), seasons -/

def resourceMap? (s : String) : Option Nat :=
  if s = "fish" then some RES_FISH
  else if s = "grain" then some RES_GRAIN
  else if s = "wood" then some RES_WOOD
  else if s = "clay" then some RES_CLAY
  else if s = "copper" then some RES_COPPER
  else if s = "tin" then some RES_TIN
  else if s = "fire" then some RES_FIRE
  else if s = "plant_fiber" then some RES_PLANT_FIBER
  else if s = "cattle" then some RES_CATTLE
  else if s = "sheep" then some RES_SHEEP
  else if s = "pig" then some RES_PIG
  else if s = "charcoal" then some RES_CHARCOAL
  else if s = "religion" then some RES_RELIGION
  else if s = "tribalism" then some RES_TRIBALISM
  else none

def itemMap? (s : String) : Option Nat :=
  if s = "fish" then some ITEM_FISH
  else if s = "grain" then some ITEM_GRAIN
  else if s = "wood" then some ITEM_WOOD
  else if s = "clay" then some ITEM_CLAY
  else if s = "copper" then some ITEM_COPPER
  else if s = "tin" then some ITEM_TIN
  else if s = "bronze" then some ITEM_BRONZE
  else if s = "tool" then some ITEM_TOOL
  else if s = "pot" then some ITEM_POT
  else none

def tagMap? (s : String) : Option Nat :=
  if s = "coast" then some TAG_COAST
  else if s = "beach" then some TAG_BEACH
  else if s = "forest" then some TAG_FOREST
  else if s = "marsh" then some TAG_MARSH
  else if s = "hill" then some TAG_HILL
  else if s = "river" then some TAG_RIVER
  else if s = "field" then some TAG_FIELD
  else if s = "settle" then some TAG_SETTLE
  else if s = "settlement" then some TAG_SETTLE
  else none

/-- ASCII lowercasing of a string (Python `str.lower()` restricted to the
ASCII identifiers the DSL uses). -/
def pyLower (s : String) : String := ⟨s.data.map Char.toLower⟩

/-- `season_parse(s)`: lowercases, maps the five known names (with `fall`
aliasing `autumn`), and defaults to `SEASON_ANY` for anything else. -/
def season_parse (s : String) : Nat :=
  let ss := pyLower s
  if ss = "spring" then SEASON_SPRING
  else if ss = "summer" then SEASON_SUMMER
  else if ss = "autumn" ∨ ss = "fall" then SEASON_AUTUMN
  else if ss = "winter" then SEASON_WINTER
  else if ss = "any" then SEASON_ANY
  else SEASON_ANY

def season_name (k : Nat) : String :=
  if k = SEASON_SPRING then "spring"
  else if k = SEASON_SUMMER then "summer"
  else if k = SEASON_AUTUMN then "autumn"
  else if k = SEASON_WINTER then "winter"
  else "any"

def parse_cmp (s : String) : Nat :=
  if s = ">" then CMP_GT
  else if s = "<" then CMP_LT
  else if s = ">=" then CMP_GE
  else if s = "<=" then CMP_LE
  else CMP_ANY

/-! ## Agents, households, settlements -/

structure Agent where
  x : Nat := 0
  y : Nat := 0
  vocation_id : Int := -1
  age : Nat := 0
  household_id : Nat := 0
  inv : List Int := List.replicate ITEM_MAX 0
  hunger : ℚ := 0
  fatigue : ℚ := 0
  health : ℚ := 1
deriving DecidableEq

instance : Inhabited Agent := ⟨{}⟩

structure Household where
  id : Nat
  settlement_id : Nat
  parent_id : Int := -1
deriving DecidableEq

instance : Inhabited Household := ⟨⟨0, 0, -1⟩⟩

structure Settlement where
  x : Nat
  y : Nat
  val : List ℚ := List.replicate ITEM_MAX 1
deriving DecidableEq

instance : Inhabited Settlement := ⟨⟨0, 0, List.replicate ITEM_MAX 1⟩⟩

/-- Python list read `l[i]` (indices are always in range in the source;
out-of-range reads default to 0 in the embedding). -/
def lget (l : List Int) (i : Nat) : Int := l.getD i 0

def qget (l : List ℚ) (i : Nat) : ℚ := l.getD i 1

/-- Python in-place `l[i] += d`. -/
def ladd (l : List Int) (i : Nat) (d : Int) : List Int := l.set i (lget l i + d)

/-! ## Condition evaluator (`cond_eval`)

The Python function receives the whole simulator but reads only `sim.day`;
the embedding takes the day directly. -/

def invClauseOK (a : Agent) (cl : Nat × Nat × Int) : Bool :=
  let ik := cl.1
  let ck := cl.2.1
  let v := cl.2.2
  let have0 := lget a.inv ik
  if ck = CMP_GT then v < have0
  else if ck = CMP_LT then have0 < v
  else if ck = CMP_GE then v ≤ have0
  else if ck = CMP_LE then have0 ≤ v
  else true

def cond_eval (c : Condition) (day : Nat) (a : Agent) (roll : ℚ) : Bool :=
  if c.has_hunger ∧ ¬(c.hunger_threshold < a.hunger) then false
  else if c.has_fatigue ∧ ¬(a.fatigue < c.fatigue_threshold) then false
  else if c.season_eq ≠ SEASON_ANY ∧ world_season_kind day ≠ c.season_eq then false
  else if ¬(c.inv.all (invClauseOK a)) then false
  else if c.has_prob ∧ ¬(roll < c.prob) then false
  else true

/-! ## Task picker (`choose_task`) -/

/-- The accumulation loop of `choose_task`: total weight and eligible list over
the vocation's rules (a rule is appended iff its condition succeeds and its
clamped weight `max(weight, 0)` is positive). -/
def scanRules (day : Nat) (a : Agent) (roll : ℚ) : List RuleDef → Int × List RuleDef
  | [] => (0, [])
  | r :: rs =>
    if cond_eval r.cond day a roll then
      let w : Int := if 0 < r.weight then r.weight else 0
      if 0 < w then
        let rest := scanRules day a roll rs
        (w + rest.1, r :: rest.2)
      else scanRules day a roll rs
    else scanRules day a roll rs

/-- Task-name resolution (the inner `for t in voc.tasks` loop). -/
def taskLookup (tasks : List TaskDef) (name : String) : Option TaskDef :=
  tasks.find? (fun t => t.name = name)

/-- The subtract-walk of `choose_task`: the first rule driving `pick` below
zero is selected. -/
def pickRule : Int → List RuleDef → Option RuleDef
  | _, [] => none
  | pick, r :: rs =>
    let w : Int := if 0 < r.weight then r.weight else 0
    let p := pick - w
    if p < 0 then some r else pickRule p rs

/-- `choose_task`.  The Python function receives the simulator and reads
`sim.world.seed`, `sim.day` and `sim.voc_table`, passed here directly. -/
def choose_task (seed day : Nat) (tv : List VocationDef) (a : Agent) :
    Option TaskDef :=
  match vocGet tv a.vocation_id with
  | none => none
  | some voc =>
    let roll := rng_f01 seed a.x a.y (day ^^^ (a.household_id * 131))
    let scan := scanRules day a roll voc.rules
    if scan.1 ≤ 0 then none
    else
      let pick : Int :=
        Int.emod ((rng_u32 seed a.x a.y (day ^^^ 0xC0FFEE) : Nat) : Int) scan.1
      match pickRule pick scan.2 with
      | none => none
      | some r => taskLookup voc.tasks r.task_name

/-! ## Claim C4: weighted rule selection -/

/-- Cumulative weight of the first `k` rules of a list. -/
def cumW (l : List RuleDef) (k : Nat) : Int :=
  ((l.take k).map (fun r => r.weight)).sum

theorem cumW_zero (l : List RuleDef) : cumW l 0 = 0 := rfl

theorem cumW_cons (r : RuleDef) (rs : List RuleDef) (k : Nat) :
    cumW (r :: rs) (k + 1) = r.weight + cumW rs k := by
  simp [cumW, List.take_succ_cons]

theorem scanRules_elig (day : Nat) (a : Agent) (roll : ℚ) (rules : List RuleDef) :
    ∀ r ∈ (scanRules day a roll rules).2,
      cond_eval r.cond day a roll = true ∧ 0 < r.weight := by
  induction rules with
  | nil => intro r hr; simp [scanRules] at hr
  | cons r0 rs ih =>
    intro r hr
    by_cases hc : cond_eval r0.cond day a roll
    · by_cases hw : (0 : Int) < r0.weight
      · simp only [scanRules, hc, if_true, if_pos hw] at hr
        rcases List.mem_cons.mp hr with rfl | hr
        · exact ⟨hc, hw⟩
        · exact ih r hr
      · simp only [scanRules, hc, if_true, if_pos, if_neg hw] at hr
        exact ih r hr
    · simp only [scanRules, hc] at hr
      simp only [Bool.false_eq_true, if_false] at hr
      exact ih r hr

theorem scanRules_total (day : Nat) (a : Agent) (roll : ℚ) (rules : List RuleDef) :
    (scanRules day a roll rules).1
      = cumW (scanRules day a roll rules).2 (scanRules day a roll rules).2.length := by
  induction rules with
  | nil => rfl
  | cons r0 rs ih =>
    by_cases hc : cond_eval r0.cond day a roll
    · by_cases hw : (0 : Int) < r0.weight
      · simp only [scanRules, hc, if_true, if_pos hw, List.length_cons, cumW_cons]
        rw [ih]
      · simp only [scanRules, hc, if_true, if_pos, if_neg hw]
        exact ih
    · simp only [scanRules, hc, Bool.false_eq_true, if_false]
      exact ih

theorem scanRules_filter_sum (day : Nat) (a : Agent) (roll : ℚ)
    (rules : List RuleDef)
    (hw : ∀ r ∈ rules, cond_eval r.cond day a roll = true → 0 ≤ r.weight) :
    (scanRules day a roll rules).1
      = ((rules.filter (fun r => cond_eval r.cond day a roll)).map
          (fun r => r.weight)).sum := by
  induction rules with
  | nil => rfl
  | cons r0 rs ih =>
    have hw' : ∀ r ∈ rs, cond_eval r.cond day a roll = true → 0 ≤ r.weight :=
      fun r hr => hw r (List.mem_cons_of_mem r0 hr)
    cases hb : cond_eval r0.cond day a roll with
    | false =>
      simp [scanRules, hb, List.filter_cons, ih hw']
    | true =>
      have h0 : (0 : Int) ≤ r0.weight := hw r0 (List.mem_cons_self r0 rs) hb
      by_cases hwt : (0 : Int) < r0.weight
      · simp [scanRules, hb, hwt, List.filter_cons, ih hw']
      · have hz : r0.weight = 0 := le_antisymm (not_lt.mp hwt) h0
        simp [scanRules, hb, hwt, List.filter_cons, ih hw', hz]

theorem pickRule_interval (l : List RuleDef) (pick : Int)
    (hpos : ∀ r ∈ l, 0 < r.weight) (h0 : 0 ≤ pick) (hlt : pick < cumW l l.length) :
    ∃ k, ∃ hk : k < l.length,
      cumW l k ≤ pick ∧ pick < cumW l (k + 1) ∧
      pickRule pick l = some (l.get ⟨k, hk⟩) := by
  induction l generalizing pick with
  | nil => simp [cumW] at hlt; omega
  | cons r rs ih =>
    have hwr : (0 : Int) < r.weight := hpos r (List.mem_cons_self r rs)
    have hw : (if (0 : Int) < r.weight then r.weight else 0) = r.weight := if_pos hwr
    by_cases hfirst : pick - r.weight < 0
    · refine ⟨0, by simp, ?_, ?_, ?_⟩
      · simpa [cumW_zero] using h0
      · rw [cumW_cons, cumW_zero]; omega
      · simp only [pickRule, hw, if_pos hfirst]; rfl
    · have h0' : 0 ≤ pick - r.weight := by omega
      have hlt' : pick - r.weight < cumW rs rs.length := by
        rw [List.length_cons, cumW_cons] at hlt; omega
      obtain ⟨k, hk, hlo, hhi, hpk⟩ :=
        ih (pick - r.weight) (fun r' hr' => hpos r' (List.mem_cons_of_mem r hr'))
          h0' hlt'
      refine ⟨k + 1, by simpa using hk, ?_, ?_, ?_⟩
      · rw [cumW_cons]; omega
      · rw [cumW_cons]; omega
      · simp only [pickRule, hw, if_neg hfirst]
        rw [hpk]; rfl

/-- Claim C4: for an agent with a valid vocation, `choose_task` computes
`total` as the sum of weights of rules whose condition succeeds under the
shared per-agent-day roll (exactly, whenever those weights are non-negative;
the code clamps negative weights at 0); if `total = 0` it returns no task, and
otherwise `pick = rng_u32(seed, x, y, day xor 0xC0FFEE) mod total` lands in
the cumulative-weight interval of the selected eligible rule, whose task-name
resolution is the result. -/
theorem C4_choose_task (seed day : Nat) (tv : List VocationDef) (a : Agent)
    (voc : VocationDef) (roll : ℚ) (total : Int) (eligible : List RuleDef)
    (pick : Int)
    (hvoc : vocGet tv a.vocation_id = some voc)
    (hroll : roll = rng_f01 seed a.x a.y (day ^^^ (a.household_id * 131)))
    (hscan : (total, eligible) = scanRules day a roll voc.rules)
    (hpick : pick
      = Int.emod ((rng_u32 seed a.x a.y (day ^^^ 0xC0FFEE) : Nat) : Int) total) :
    ((∀ r ∈ voc.rules, cond_eval r.cond day a roll = true → 0 ≤ r.weight) →
      total = ((voc.rules.filter (fun r => cond_eval r.cond day a roll)).map
          (fun r => r.weight)).sum)
    ∧ (total = 0 → choose_task seed day tv a = none)
    ∧ (0 < total →
        0 ≤ pick ∧ pick < total ∧
        ∃ k, ∃ hk : k < eligible.length,
          cumW eligible k ≤ pick ∧ pick < cumW eligible (k + 1) ∧
          choose_task seed day tv a
            = taskLookup voc.tasks ((eligible.get ⟨k, hk⟩).task_name)) := by
  subst hroll
  subst hpick
  have htotal : total = (scanRules day a
      (rng_f01 seed a.x a.y (day ^^^ (a.household_id * 131))) voc.rules).1 := by
    rw [← hscan]
  have helig : eligible = (scanRules day a
      (rng_f01 seed a.x a.y (day ^^^ (a.household_id * 131))) voc.rules).2 := by
    rw [← hscan]
  subst htotal
  subst helig
  refine ⟨fun hw => scanRules_filter_sum day a _ voc.rules hw, ?_, ?_⟩
  · intro h0
    unfold choose_task
    rw [hvoc]
    simp only []
    rw [if_pos (by omega)]
  · intro hpos
    have hp0 : 0 ≤ Int.emod ((rng_u32 seed a.x a.y (day ^^^ 0xC0FFEE) : Nat) : Int)
        (scanRules day a (rng_f01 seed a.x a.y (day ^^^ (a.household_id * 131)))
          voc.rules).1 :=
      Int.emod_nonneg _ (by omega)
    have hplt : Int.emod ((rng_u32 seed a.x a.y (day ^^^ 0xC0FFEE) : Nat) : Int)
        (scanRules day a (rng_f01 seed a.x a.y (day ^^^ (a.household_id * 131)))
          voc.rules).1
        < (scanRules day a (rng_f01 seed a.x a.y (day ^^^ (a.household_id * 131)))
          voc.rules).1 :=
      Int.emod_lt_of_pos _ hpos
    have hlt : Int.emod ((rng_u32 seed a.x a.y (day ^^^ 0xC0FFEE) : Nat) : Int)
        (scanRules day a (rng_f01 seed a.x a.y (day ^^^ (a.household_id * 131)))
          voc.rules).1
        < cumW (scanRules day a
            (rng_f01 seed a.x a.y (day ^^^ (a.household_id * 131))) voc.rules).2
            (scanRules day a
            (rng_f01 seed a.x a.y (day ^^^ (a.household_id * 131))) voc.rules).2.length := by
      rw [← scanRules_total]; exact hplt
    obtain ⟨k, hk, hlo, hhi, hpk⟩ :=
      pickRule_interval _ _
        (fun r hr => (scanRules_elig day a _ voc.rules r hr).2) hp0 hlt
    refine ⟨hp0, hplt, k, hk, hlo, hhi, ?_⟩
    unfold choose_task
    rw [hvoc]
    simp only []
    rw [if_neg (by omega), hpk]

/-! Concrete instance used by the C4 witness: one vocation with a single task
and one always-true rule of weight 3. -/

def C4cond : Condition := {}
def C4task : TaskDef := ⟨"t", [⟨OP_REST, 0, 0⟩]⟩
def C4rule : RuleDef := ⟨"r", C4cond, "t", 3⟩
def C4voc : VocationDef := ⟨"v", [C4task], [C4rule]⟩
def C4tv : List VocationDef := [C4voc]
def C4a : Agent := { vocation_id := 0 }
def C4roll : ℚ := rng_f01 0 C4a.x C4a.y (1 ^^^ (C4a.household_id * 131))
def C4scan : Int × List RuleDef := scanRules 1 C4a C4roll C4voc.rules
def C4pick : Int :=
  Int.emod ((rng_u32 0 C4a.x C4a.y (1 ^^^ 0xC0FFEE) : Nat) : Int) C4scan.1

/-- Witness for C4 at a concrete input. -/
theorem C4_choose_task_witness :
    vocGet C4tv C4a.vocation_id = some C4voc ∧ 0 < C4scan.1 ∧
    (∃ k, ∃ hk : k < C4scan.2.length,
      cumW C4scan.2 k ≤ C4pick ∧ C4pick < cumW C4scan.2 (k + 1) ∧
      choose_task 0 1 C4tv C4a
        = taskLookup C4voc.tasks ((C4scan.2.get ⟨k, hk⟩).task_name)) := by
  have htot : 0 < C4scan.1 := by decide
  exact ⟨by decide, htot,
    ((C4_choose_task 0 1 C4tv C4a C4voc C4roll C4scan.1 C4scan.2 C4pick
      (by decide) rfl rfl rfl).2.2 htot).2.2⟩

/-! ## DSL front end over token streams

The lexer produces WORD / LBRACE / RBRACE / EOF tokens; the parsing layer is
embedded over the token list (EOF is the empty list).  Loops of the source
become fuel-indexed recursions; every loop iteration of the source consumes at
least one token, so any `fuel` larger than the token count is sufficient. -/

inductive Tok where
  | word (s : String)
  | lbrace
  | rbrace
  | eof
deriving DecidableEq

abbrev Toks := List Tok

/-- `Lexer.expect(TK_WORD)`. -/
def expectWord : Toks → Except String (String × Toks)
  | .word s :: ts => .ok (s, ts)
  | _ => .error "Parse error: expected word"

/-- `Lexer.expect(TK_LBRACE)`. -/
def expectL : Toks → Except String Toks
  | .lbrace :: ts => .ok ts
  | _ => .error "Parse error: expected lbrace"

def digitsToNat (cs : List Char) : Nat :=
  cs.foldl (fun acc c => acc * 10 + (c.toNat - 48)) 0

/-- Value of a non-empty all-digit character run, else `none`. -/
def digitsVal? (cs : List Char) : Option Nat :=
  if cs ≠ [] ∧ cs.all Char.isDigit then some (digitsToNat cs) else none

def pyIntChars? : List Char → Option Int
  | '-' :: rest => (digitsVal? rest).map (fun n => -(n : Int))
  | '+' :: rest => (digitsVal? rest).map (fun n => (n : Int))
  | cs => (digitsVal? cs).map (fun n => (n : Int))

/-- `_to_i32` (`int(s, 10)`): optional sign followed by decimal digits.
Underscore separators and surrounding whitespace (which the lexer never emits
inside a token) are not modeled; failure is a raised `ValueError`, i.e. a
parse failure. -/
def pyInt? (s : String) : Option Int := pyIntChars? s.data

/-- Split a character list at every occurrence of `sep`. -/
def splitCharAux (sep : Char) : List Char → List Char → List (List Char)
  | [], acc => [acc.reverse]
  | c :: rest, acc =>
    if c = sep then acc.reverse :: splitCharAux sep rest []
    else splitCharAux sep rest (c :: acc)

def splitChar (sep : Char) (cs : List Char) : List (List Char) :=
  splitCharAux sep cs []

/-- Unsigned decimal mantissa `12`, `12.`, `12.5` or `.5`, as an exact
rational. -/
def pyMantissaChars? (cs : List Char) : Option ℚ :=
  match splitChar '.' cs with
  | [ip] => (digitsVal? ip).map (fun n => (n : ℚ))
  | [ip, fp] =>
    if ip.all Char.isDigit ∧ fp.all Char.isDigit ∧ (ip ≠ [] ∨ fp ≠ []) then
      some ((digitsToNat ip : ℚ) + (digitsToNat fp : ℚ) / (10 : ℚ) ^ fp.length)
    else none
  | _ => none

def pyFloatBody? (cs : List Char) : Option ℚ :=
  match splitChar 'e' cs with
  | [m] => pyMantissaChars? m
  | [m, ex] =>
    match pyMantissaChars? m, pyIntChars? ex with
    | some q, some e => some (q * (10 : ℚ) ^ e)
    | _, _ => none
  | _ => none

/-- `_to_f32` (`float(s)`): decimal forms with optional sign and exponent,
modeled as exact rationals (the source's IEEE doubles are idealized as exact
decimal values throughout the embedding).  Exotic accepted spellings
(`inf`, `nan`, hex floats, underscores) are not modeled. -/
def pyFloat? (s : String) : Option ℚ :=
  match (pyLower s).data with
  | '-' :: body => (pyFloatBody? body).map (fun q => -q)
  | '+' :: body => pyFloatBody? body
  | body => pyFloatBody? body

/-! ### `parse_condition` -/

/-- One clause of `parse_condition`'s loop body (everything between reading
the leading keyword and the `and`/`do` continuation). -/
def parse_clause (c : Condition) : Toks → Except String (Condition × Toks)
  | .word a :: ts =>
    if a = "hunger" then
      match expectWord ts with
      | .error e => .error e
      | .ok (op, ts) =>
        match expectWord ts with
        | .error e => .error e
        | .ok (vs, ts) =>
          match pyFloat? vs with
          | none => .error "ValueError: invalid float"
          | some v =>
            if op ≠ ">" then .error "Only hunger > x supported (matches C)"
            else .ok ({ c with has_hunger := true, hunger_threshold := v }, ts)
    else if a = "fatigue" then
      match expectWord ts with
      | .error e => .error e
      | .ok (op, ts) =>
        match expectWord ts with
        | .error e => .error e
        | .ok (vs, ts) =>
          match pyFloat? vs with
          | none => .error "ValueError: invalid float"
          | some v =>
            if op ≠ "<" then .error "Only fatigue < x supported (matches C)"
            else .ok ({ c with has_fatigue := true, fatigue_threshold := v }, ts)
    else if a = "season" then
      match expectWord ts with
      | .error e => .error e
      | .ok (op, ts) =>
        match expectWord ts with
        | .error e => .error e
        | .ok (v, ts) =>
          if op ≠ "==" then .error "Only season == name supported (matches C)"
          else .ok ({ c with season_eq := season_parse v }, ts)
    else if a = "inv" then
      match expectWord ts with
      | .error e => .error e
      | .ok (item, ts) =>
        match expectWord ts with
        | .error e => .error e
        | .ok (op, ts) =>
          match expectWord ts with
          | .error e => .error e
          | .ok (vs, ts) =>
            match pyInt? vs with
            | none => .error "ValueError: invalid int"
            | some v =>
              match itemMap? item with
              | none => .error "Unknown item in inv clause"
              | some ik =>
                let ck := parse_cmp op
                if ck = CMP_ANY then .error "Unknown comparison in inv clause"
                else if 4 ≤ c.inv.length then
                  .error "Too many inv clauses (max 4, matches C)"
                else .ok ({ c with inv := c.inv ++ [(ik, ck, v)] }, ts)
    else if a = "prob" then
      match expectWord ts with
      | .error e => .error e
      | .ok (vs, ts) =>
        match pyFloat? vs with
        | none => .error "ValueError: invalid float"
        | some v0 =>
          let v1 := if v0 < 0 then (0 : ℚ) else v0
          let v2 := if 1 < v1 then (1 : ℚ) else v1
          .ok ({ c with has_prob := true, prob := v2 }, ts)
    else .error "Unknown condition clause"
  | _ => .error "Parse error: expected condition clause"

/-- `parse_condition`: one or more clauses joined by `and`, terminated by
`do` (which is consumed). -/
def parse_condition (fuel : Nat) (c : Condition) (ts : Toks) :
    Except String (Condition × Toks) :=
  match fuel with
  | 0 => .error "out of fuel"
  | fuel + 1 =>
    match parse_clause c ts with
    | .error e => .error e
    | .ok (c', ts') =>
      match ts' with
      | .word w :: ts2 =>
        if w = "and" then parse_condition fuel c' ts2
        else if w = "do" then .ok (c', ts2)
        else .error "Parse error: expected do after condition"
      | _ => .error "Parse error: expected do after condition"

/-! ### `parse_task` and `parse_rule` -/

def parse_ops (fuel : Nat) (acc : List OpDef) (ts : Toks) :
    Except String (List OpDef × Toks) :=
  match fuel with
  | 0 => .error "out of fuel"
  | fuel + 1 =>
    match ts with
    | .rbrace :: ts => .ok (acc, ts)
    | .word op :: ts =>
      if op = "move_to" then
        match expectWord ts with
        | .error e => .error e
        | .ok (tag, ts) =>
          match tagMap? tag with
          | none => .error "Unknown tag in move_to"
          | some tg => parse_ops fuel (acc ++ [⟨OP_MOVE_TO, 0, tg⟩]) ts
      else if op = "gather" then
        match expectWord ts with
        | .error e => .error e
        | .ok (res, ts) =>
          match expectWord ts with
          | .error e => .error e
          | .ok (amtS, ts) =>
            match pyInt? amtS with
            | none => .error "ValueError: invalid int"
            | some amt =>
              match resourceMap? res with
              | none => .error "Unknown resource in gather"
              | some rk => parse_ops fuel (acc ++ [⟨OP_GATHER, amt, rk⟩]) ts
      else if op = "craft" then
        match expectWord ts with
        | .error e => .error e
        | .ok (item, ts) =>
          match expectWord ts with
          | .error e => .error e
          | .ok (amtS, ts) =>
            match pyInt? amtS with
            | none => .error "ValueError: invalid int"
            | some amt =>
              match itemMap? item with
              | none => .error "Unknown item in craft"
              | some ik => parse_ops fuel (acc ++ [⟨OP_CRAFT, amt, ik⟩]) ts
      else if op = "trade" then parse_ops fuel (acc ++ [⟨OP_TRADE, 0, 0⟩]) ts
      else if op = "rest" then parse_ops fuel (acc ++ [⟨OP_REST, 0, 0⟩]) ts
      else if op = "roam" then
        match expectWord ts with
        | .error e => .error e
        | .ok (stepsS, ts) =>
          match pyInt? stepsS with
          | none => .error "ValueError: invalid int"
          | some steps => parse_ops fuel (acc ++ [⟨OP_ROAM, steps, 0⟩]) ts
      else .error "Unknown op in task"
    | _ => .error "Parse error: expected op name"

def parse_task (fuel : Nat) (ts : Toks) : Except String (TaskDef × Toks) :=
  match expectWord ts with
  | .error e => .error e
  | .ok (name, ts) =>
    match expectL ts with
    | .error e => .error e
    | .ok ts =>
      match parse_ops fuel [] ts with
      | .error e => .error e
      | .ok (ops, ts) => .ok (⟨name, ops⟩, ts)

def parse_rule (fuel : Nat) (ts : Toks) : Except String (RuleDef × Toks) :=
  match expectWord ts with
  | .error e => .error e
  | .ok (name, ts) =>
    match expectL ts with
    | .error e => .error e
    | .ok ts =>
      match expectWord ts with
      | .error e => .error e
      | .ok (whenw, ts) =>
        if whenw ≠ "when" then .error "Parse error: rule must start with when"
        else
          match parse_condition fuel {} ts with
          | .error e => .error e
          | .ok (cond, ts) =>
            match expectWord ts with
            | .error e => .error e
            | .ok (task_name, ts) =>
              match expectWord ts with
              | .error e => .error e
              | .ok (wkw, ts) =>
                if wkw ≠ "weight" then .error "Parse error: expected weight"
                else
                  match expectWord ts with
                  | .error e => .error e
                  | .ok (ws, ts) =>
                    match pyInt? ws with
                    | none => .error "ValueError: invalid int"
                    | some weight =>
                      match ts with
                      | .word "prob" :: ts2 =>
                        match expectWord ts2 with
                        | .error e => .error e
                        | .ok (ps, ts3) =>
                          match pyFloat? ps with
                          | none => .error "ValueError: invalid float"
                          | some pv0 =>
                            let pv1 := if pv0 < 0 then (0 : ℚ) else pv0
                            let pv := if 1 < pv1 then (1 : ℚ) else pv1
                            match ts3 with
                            | .rbrace :: ts4 =>
                              .ok (⟨name,
                                { cond with has_prob := true, prob := pv },
                                task_name, weight⟩, ts4)
                            | _ => .error "Parse error: expected rbrace to end rule"
                      | .rbrace :: ts2 =>
                        .ok (⟨name, cond, task_name, weight⟩, ts2)
                      | _ => .error "Parse error: expected rbrace to end rule"

/-! ### `parse_vocations_block` -/

/-- Defensive skip of an unknown `{ ... }` block (depth counting, stops at
EOF). -/
def skipBlock (fuel depth : Nat) (ts : Toks) : Toks :=
  match fuel with
  | 0 => ts
  | fuel + 1 =>
    if depth = 0 then ts
    else
      match ts with
      | [] => []
      | .lbrace :: ts => skipBlock fuel (depth + 1) ts
      | .rbrace :: ts => skipBlock fuel (depth - 1) ts
      | _ :: ts => skipBlock fuel depth ts

def idleTask : TaskDef := ⟨"idle", [⟨OP_REST, 0, 0⟩]⟩

/-- One step of the post-fix loop over a vocation's rules (threading the
mutable task list): keep rules whose `task_name` is among the original task
names, rewrite danglers to the current first task's name, synthesizing the
`idle` task when there is none. -/
def fixStep (tnames : List String) (acc : List TaskDef × List RuleDef)
    (r : RuleDef) : List TaskDef × List RuleDef :=
  if r.task_name ∈ tnames then (acc.1, acc.2 ++ [r])
  else
    match acc.1 with
    | [] => (acc.1 ++ [idleTask], acc.2 ++ [{ r with task_name := "idle" }])
    | t0 :: _ => (acc.1, acc.2 ++ [{ r with task_name := t0.name }])

/-- The post-fix of `parse_vocations_block` ("post-fix rules to handle missing
tasks"): the source iterates only when `voc.rules` is non-empty (the loop is a
no-op otherwise), computing the name set once up front. -/
def fixVocation (v : VocationDef) : VocationDef :=
  if v.rules.isEmpty then v
  else
    let tnames := v.tasks.map (fun t => t.name)
    let fixd := v.rules.foldl (fixStep tnames) (v.tasks, [])
    { v with tasks := fixd.1, rules := fixd.2 }

/-- The `vocation <name> { ... }` body loop: `task`, `rule`, or a defensively
skipped unknown keyword. -/
def parse_voc_body (fuel : Nat) (voc : VocationDef) (ts : Toks) :
    Except String (VocationDef × Toks) :=
  match fuel with
  | 0 => .error "out of fuel"
  | fuel + 1 =>
    match ts with
    | .rbrace :: ts => .ok (voc, ts)
    | .word k :: ts =>
      if k = "task" then
        match parse_task fuel ts with
        | .error e => .error e
        | .ok (t, ts) =>
          parse_voc_body fuel { voc with tasks := voc.tasks ++ [t] } ts
      else if k = "rule" then
        match parse_rule fuel ts with
        | .error e => .error e
        | .ok (r, ts) =>
          parse_voc_body fuel { voc with rules := voc.rules ++ [r] } ts
      else
        match ts with
        | .lbrace :: ts2 => parse_voc_body fuel voc (skipBlock fuel 1 ts2)
        | _ :: ts2 => parse_voc_body fuel voc ts2
        | [] => parse_voc_body fuel voc []
    | _ => .error "Parse error: expected keyword in vocation body"

/-- The loop of `parse_vocations_block` after its opening brace: each
`vocation` is parsed, post-fixed, and appended to the table. -/
def parse_vocations (fuel : Nat) (tv : List VocationDef) (ts : Toks) :
    Except String (List VocationDef × Toks) :=
  match fuel with
  | 0 => .error "out of fuel"
  | fuel + 1 =>
    match ts with
    | .rbrace :: ts => .ok (tv, ts)
    | .word t :: ts =>
      if t = "vocation" then
        match expectWord ts with
        | .error e => .error e
        | .ok (name, ts) =>
          match expectL ts with
          | .error e => .error e
          | .ok ts =>
            match parse_voc_body fuel ⟨name, [], []⟩ ts with
            | .error e => .error e
            | .ok (voc, ts) =>
              parse_vocations fuel (tv ++ [fixVocation voc]) ts
      else .error "Parse error: expected vocation within vocations block"
    | _ => .error "Parse error: expected vocation within vocations block"

/-- `parse_vocations_block`: expect `{`, then the vocation loop. -/
def parse_vocations_block (fuel : Nat) (tv : List VocationDef) (ts : Toks) :
    Except String (List VocationDef × Toks) :=
  match expectL ts with
  | .error e => .error e
  | .ok ts => parse_vocations fuel tv ts

/-! ## Claim C8: parse-time rule repair -/

/-- No dangling rule reference: every rule names a task of its vocation. -/
def GoodVoc (v : VocationDef) : Prop :=
  ∀ r ∈ v.rules, r.task_name ∈ v.tasks.map (fun t => t.name)

instance (v : VocationDef) : Decidable (GoodVoc v) := by
  unfold GoodVoc; infer_instance

theorem fixStep_fold_good (tnames : List String) (rules : List RuleDef) :
    ∀ (tasks : List TaskDef) (racc : List RuleDef),
      (∀ n ∈ tnames, n ∈ tasks.map (fun t => t.name)) →
      (∀ r ∈ racc, r.task_name ∈ tasks.map (fun t => t.name)) →
      (∀ n ∈ tnames,
        n ∈ (rules.foldl (fixStep tnames) (tasks, racc)).1.map (fun t => t.name))
      ∧ (∀ r ∈ (rules.foldl (fixStep tnames) (tasks, racc)).2,
          r.task_name
            ∈ (rules.foldl (fixStep tnames) (tasks, racc)).1.map
                (fun t => t.name)) := by
  induction rules with
  | nil => intro tasks racc hsub hacc; exact ⟨hsub, hacc⟩
  | cons r rest ih =>
    intro tasks racc hsub hacc
    simp only [List.foldl_cons]
    by_cases hmem : r.task_name ∈ tnames
    · rw [show fixStep tnames (tasks, racc) r = (tasks, racc ++ [r]) by
        simp [fixStep, hmem]]
      refine ih tasks (racc ++ [r]) hsub ?_
      intro r' hr'
      rcases List.mem_append.mp hr' with h | h
      · exact hacc r' h
      · rw [List.mem_singleton.mp h]
        exact hsub _ hmem
    · cases htasks : tasks with
      | nil =>
        subst htasks
        rw [show fixStep tnames (([] : List TaskDef), racc) r
            = ([idleTask], racc ++ [{ r with task_name := "idle" }]) by
          simp [fixStep, hmem]]
        refine ih _ _ ?_ ?_
        · intro n hn
          exact absurd (hsub n hn) (by simp)
        · intro r' hr'
          rcases List.mem_append.mp hr' with h | h
          · exact absurd (hacc r' h) (by simp)
          · rw [List.mem_singleton.mp h]
            simp [idleTask]
      | cons t0 trest =>
        subst htasks
        rw [show fixStep tnames (t0 :: trest, racc) r
            = (t0 :: trest, racc ++ [{ r with task_name := t0.name }]) by
          simp [fixStep, hmem]]
        refine ih (t0 :: trest) _ hsub ?_
        intro r' hr'
        rcases List.mem_append.mp hr' with h | h
        · exact hacc r' h
        · rw [List.mem_singleton.mp h]
          simp

theorem fixVocation_good (v : VocationDef) : GoodVoc (fixVocation v) := by
  unfold fixVocation
  cases hemp : v.rules.isEmpty
  · simp only [Bool.false_eq_true, if_false]
    have h := fixStep_fold_good (v.tasks.map (fun t => t.name)) v.rules v.tasks []
      (fun n hn => hn) (by simp)
    intro r hr
    exact h.2 r hr
  · simp only [if_true]
    intro r hr
    rw [List.isEmpty_iff.mp hemp] at hr
    simp at hr

theorem fixStep_fold_keep (tnames : List String) (rules : List RuleDef)
    (t0 : TaskDef) (trest : List TaskDef) :
    ∀ racc : List RuleDef,
      rules.foldl (fixStep tnames) (t0 :: trest, racc)
        = (t0 :: trest,
            racc ++ rules.map (fun r =>
              if r.task_name ∈ tnames then r
              else { r with task_name := t0.name })) := by
  induction rules with
  | nil => intro racc; simp
  | cons r rest ih =>
    intro racc
    by_cases hmem : r.task_name ∈ tnames
    · simp [fixStep, hmem, ih]
    · simp [fixStep, hmem, ih]

theorem fixVocation_tasks_nonempty (v : VocationDef) (t0 : TaskDef)
    (trest : List TaskDef) (h : v.tasks = t0 :: trest) :
    (fixVocation v).tasks = v.tasks
    ∧ (fixVocation v).rules = v.rules.map (fun r =>
        if r.task_name ∈ v.tasks.map (fun t => t.name) then r
        else { r with task_name := t0.name }) := by
  cases hemp : v.rules.isEmpty with
  | true =>
    have h0 : v.rules = [] := List.isEmpty_iff.mp hemp
    simp [fixVocation, hemp, h0]
  | false =>
    simp only [fixVocation, hemp, Bool.false_eq_true, if_false]
    rw [h, fixStep_fold_keep]
    exact ⟨rfl, by simp⟩

theorem fixVocation_tasks_empty (v : VocationDef) (h : v.tasks = [])
    (hr : v.rules ≠ []) :
    (fixVocation v).tasks = [idleTask]
    ∧ (fixVocation v).rules
        = v.rules.map (fun r => { r with task_name := "idle" }) := by
  obtain ⟨r0, rest, hrules⟩ : ∃ r0 rest, v.rules = r0 :: rest := by
    cases hv : v.rules with
    | nil => exact absurd hv hr
    | cons a l => exact ⟨a, l, rfl⟩
  have hstep : fixStep ([] : List String) (([] : List TaskDef), []) r0
      = ([idleTask], [{ r0 with task_name := "idle" }]) := by
    simp [fixStep]
  simp only [fixVocation, hrules, h, List.isEmpty_cons, Bool.false_eq_true,
    if_false, List.map_nil, List.foldl_cons, hstep]
  rw [fixStep_fold_keep]
  constructor
  · rfl
  · simp [idleTask]

theorem parse_vocations_good (fuel : Nat) :
    ∀ (tv : List VocationDef) (ts : Toks) (tv' : List VocationDef) (rest : Toks),
      parse_vocations fuel tv ts = .ok (tv', rest) →
      (∀ v ∈ tv, GoodVoc v) → ∀ v ∈ tv', GoodVoc v := by
  induction fuel with
  | zero => intro tv ts tv' rest hp; simp [parse_vocations] at hp
  | succ fuel ih =>
    intro tv ts tv' rest hp hgood
    match ts with
    | [] => simp [parse_vocations] at hp
    | .lbrace :: ts0 => simp [parse_vocations] at hp
    | .eof :: ts0 => simp [parse_vocations] at hp
    | .rbrace :: ts0 =>
      simp only [parse_vocations, Except.ok.injEq, Prod.mk.injEq] at hp
      rw [← hp.1]
      exact hgood
    | .word s :: ts0 =>
      simp only [parse_vocations] at hp
      by_cases hs : s = "vocation"
      · rw [if_pos hs] at hp
        cases h1 : expectWord ts0 with
        | error e => simp [h1] at hp
        | ok p1 =>
          obtain ⟨name, ts1⟩ := p1
          simp only [h1] at hp
          cases h2 : expectL ts1 with
          | error e => simp [h2] at hp
          | ok ts2 =>
            simp only [h2] at hp
            cases h3 : parse_voc_body fuel ⟨name, [], []⟩ ts2 with
            | error e => simp [h3] at hp
            | ok p3 =>
              obtain ⟨voc, ts3⟩ := p3
              simp only [h3] at hp
              refine ih (tv ++ [fixVocation voc]) ts3 tv' rest hp ?_
              intro v hv
              rcases List.mem_append.mp hv with h | h
              · exact hgood v h
              · rw [List.mem_singleton.mp h]
                exact fixVocation_good voc
      · rw [if_neg hs] at hp
        simp at hp

/-- Claim C8: after a `vocations` block parses successfully, every rule in
every vocation of the resulting table names a task present in that vocation's
task list (no dangling reference survives); a dangling rule is rewritten to
the vocation's first task's name, and when the vocation has no task at all an
`idle` task consisting of a single `rest` op is synthesized and the rule is
pointed at it. -/
theorem C8_parse_repair (fuel : Nat) (tv tv' : List VocationDef)
    (ts rest : Toks)
    (hp : parse_vocations_block fuel tv ts = .ok (tv', rest))
    (hgood : ∀ v ∈ tv, GoodVoc v) :
    (∀ v ∈ tv', GoodVoc v)
    ∧ (∀ v : VocationDef, GoodVoc (fixVocation v))
    ∧ (∀ (v : VocationDef) (t0 : TaskDef) (trest : List TaskDef),
        v.tasks = t0 :: trest →
        (fixVocation v).tasks = v.tasks
        ∧ (fixVocation v).rules = v.rules.map (fun r =>
            if r.task_name ∈ v.tasks.map (fun t => t.name) then r
            else { r with task_name := t0.name }))
    ∧ (∀ v : VocationDef, v.tasks = [] → v.rules ≠ [] →
        (fixVocation v).tasks = [idleTask]
        ∧ (fixVocation v).rules
            = v.rules.map (fun r => { r with task_name := "idle" })) := by
  refine ⟨?_, fixVocation_good, fixVocation_tasks_nonempty,
    fixVocation_tasks_empty⟩
  unfold parse_vocations_block at hp
  cases h0 : expectL ts with
  | error e => simp [h0] at hp
  | ok ts1 =>
    simp only [h0] at hp
    exact parse_vocations_good fuel tv ts1 tv' rest hp hgood

/-! Concrete instance for the C8 witness: a vocation whose single rule names a
missing task and is repaired to the first task. -/

def C8toks : Toks :=
  [.lbrace, .word "vocation", .word "v", .lbrace,
   .word "task", .word "t", .lbrace, .word "rest", .rbrace,
   .word "rule", .word "r", .lbrace, .word "when", .word "prob", .word "0.5",
   .word "do", .word "missing", .word "weight", .word "2", .rbrace,
   .rbrace, .rbrace]

def C8tv : List VocationDef :=
  [⟨"v", [⟨"t", [⟨OP_REST, 0, 0⟩]⟩],
    [⟨"r", { has_prob := true, prob := (1 : ℚ) / 2 }, "t", 2⟩]⟩]

/-- Witness for C8 at a concrete input. -/
theorem C8_parse_repair_witness :
    parse_vocations_block 30 [] C8toks = .ok (C8tv, []) ∧
      ∀ v ∈ C8tv, GoodVoc v :=
  ⟨by rfl, (C8_parse_repair 30 [] C8tv C8toks [] (by rfl) (by simp)).1⟩

/-! ## Claim C10: totality of `season == NAME` parsing -/

/-- Counterexample to claim C10 as stated: the WORD token `Spring` lies
outside the set `{spring, summer, autumn, fall, winter, any}`, yet
`season_parse` maps it to `SEASON_SPRING`, not to the `ANY` season (the
lookup happens after lowercasing), so the resulting rule's season gate is not
vacuous for this NAME. -/
theorem C10_season_cex :
    season_parse "Spring" = SEASON_SPRING ∧ SEASON_SPRING ≠ SEASON_ANY ∧
    "Spring" ∉ (["spring", "summer", "autumn", "fall", "winter", "any"]
      : List String) := by
  refine ⟨by decide, by decide, by decide⟩

/-- Claim C10 (amended): parsing the condition clause `season == NAME` never
fails for any WORD token NAME; any NAME whose ASCII lowercasing lies outside
`{spring, summer, autumn, fall, winter, any}` is silently mapped to the `ANY`
season; and a condition whose season gate is `ANY` is evaluated independently
of the day, so the evaluator never rejects on season for such a rule. -/
theorem C10_season_total :
    (∀ name : String,
      pyLower name ∉ (["spring", "summer", "autumn", "fall", "winter", "any"]
        : List String) →
      season_parse name = SEASON_ANY)
    ∧ (∀ (name : String) (c : Condition) (ts : Toks) (fuel : Nat),
        parse_condition (fuel + 1) c
            (.word "season" :: .word "==" :: .word name :: .word "do" :: ts)
          = .ok ({ c with season_eq := season_parse name }, ts))
    ∧ (∀ (c : Condition) (d1 d2 : Nat) (a : Agent) (roll : ℚ),
        c.season_eq = SEASON_ANY →
        cond_eval c d1 a roll = cond_eval c d2 a roll) := by
  refine ⟨?_, ?_, ?_⟩
  · intro name h
    simp only [List.mem_cons, List.not_mem_nil, or_false, not_or] at h
    obtain ⟨h1, h2, h3, h4, h5, h6⟩ := h
    simp [season_parse, h1, h2, h3, h4, h5, h6]
  · intro name c ts fuel
    rfl
  · intro c d1 d2 a roll h
    simp [cond_eval, h]

/-- Witness for (the amended) C10 at concrete inputs. -/
theorem C10_season_total_witness :
    (pyLower "flurble" ∉ (["spring", "summer", "autumn", "fall", "winter",
        "any"] : List String))
    ∧ season_parse "flurble" = SEASON_ANY
    ∧ parse_condition 1 {} [.word "season", .word "==", .word "flurble",
        .word "do"]
        = .ok (({ season_eq := season_parse "flurble" } : Condition), [])
    ∧ cond_eval { season_eq := SEASON_ANY } 5 default 0
        = cond_eval { season_eq := SEASON_ANY } 300 default 0 := by
  refine ⟨by decide, C10_season_total.1 "flurble" (by decide), ?_,
    C10_season_total.2.2 _ 5 300 default 0 rfl⟩
  exact C10_season_total.2.1 "flurble" {} [] 0

/-! ## Simulation state and task executor -/

/-- The simulator value.  `WorldSpec`/`WorldGen` are flattened into the record
(each holds only the seed, the settlement count and the renew model), and the
chunk cache keeps its LRU state (`max(1, cache_max)` capacity). -/
structure Sim where
  seed : Nat
  settlement_count : Nat
  renew_per_day : List ℚ
  cache_max : Nat
  cache : CacheSt
  settlements : List Settlement
  resources_pool : List Int
  households : List Household
  agents : List Agent
  voc_table : List VocationDef
  day : Nat
  switch_every_days : Nat

/-- Python `int(q)` for our exact rationals: truncation toward zero (the
rational is stored reduced, so integer division of numerator by denominator
truncates toward zero exactly as Python's `int()`). -/
def pyTrunc (q : ℚ) : Int := Int.tdiv q.num (q.den : Int)

/-- `gather`: take up to `want_units` from the global pool (1 unit = 20 pool
points); returns the units taken and the updated pool.  The agent argument of
the source is unused there. -/
def gather (pool : List Int) (rk : Nat) (want_units : Int) : Int × List Int :=
  let pool0 := lget pool rk
  let max_take := Int.ediv pool0 20
  let take := if want_units < max_take then want_units else max_take
  (take, pool.set rk (pool0 - take * 20))

/-- One iteration of the `craft_item` loop. -/
def craft_once (a : Agent) (item : Nat) : Agent :=
  if item = ITEM_POT then
    (if 2 ≤ lget a.inv ITEM_CLAY ∧ 1 ≤ lget a.inv ITEM_WOOD then
      { a with
        inv := ladd (ladd (ladd a.inv ITEM_CLAY (-2)) ITEM_WOOD (-1)) ITEM_POT 1,
        fatigue := a.fatigue + 0.01 }
    else a)
  else if item = ITEM_BRONZE then
    (if 1 ≤ lget a.inv ITEM_COPPER ∧ 1 ≤ lget a.inv ITEM_TIN ∧
        2 ≤ lget a.inv ITEM_WOOD then
      { a with
        inv := ladd (ladd (ladd (ladd a.inv ITEM_COPPER (-1)) ITEM_TIN (-1))
          ITEM_WOOD (-2)) ITEM_BRONZE 1,
        fatigue := a.fatigue + 0.02 }
    else a)
  else if item = ITEM_TOOL then
    (if 1 ≤ lget a.inv ITEM_BRONZE then
      { a with inv := ladd (ladd a.inv ITEM_BRONZE (-1)) ITEM_TOOL 1,
               fatigue := a.fatigue + 0.02 }
    else a)
  else a

/-- `craft_item`: `for _ in range(amount)` (empty for non-positive amounts). -/
def craft_item (a : Agent) (item : Nat) (amount : Int) : Agent :=
  (List.range amount.toNat).foldl (fun acc _ => craft_once acc item) a

/-- The inner best-offer scan of `trade`: the held-in-quantity (≥ 6) item,
other than the want, with the strictly largest settlement valuation; starts
from `(ITEM_FISH, -1.0)`. -/
def bestOffer (val : List ℚ) (inv : List Int) (want : Nat) : Nat :=
  ((List.range ITEM_MAX).foldl
    (fun (acc : Nat × ℚ) it =>
      if it = want then acc
      else if lget inv it < 6 then acc
      else if acc.2 < qget val it then (it, qget val it) else acc)
    (ITEM_FISH, -1)).1

/-- One `want` iteration of `trade`. -/
def tradeWant (st : Settlement) (a : Agent) (want : Nat) : Agent :=
  if 3 ≤ lget a.inv want then a
  else
    let offer := bestOffer st.val a.inv want
    if lget a.inv offer < 6 then a
    else if qget st.val want ≤ qget st.val offer then
      { a with inv := ladd (ladd a.inv offer (-2)) want 1,
               fatigue := a.fatigue + 0.01 }
    else a

/-- `trade`: barter 2 offers for 1 want against the household's settlement
valuations, for each want in `[grain, fish, tool, pot]`. -/
def trade (settlements : List Settlement) (households : List Household)
    (a : Agent) : Agent :=
  let hh := households.getD a.household_id default
  let st := settlements.getD hh.settlement_id default
  [ITEM_GRAIN, ITEM_FISH, ITEM_TOOL, ITEM_POT].foldl (tradeWant st) a

/-- First statement of `eat`'s body: consume one fish (hunger −0.35). -/
def eatFish (a : Agent) : Agent :=
  if 0 < lget a.inv ITEM_FISH then
    { a with inv := ladd a.inv ITEM_FISH (-1), hunger := a.hunger - 0.35 }
  else a

/-- Second statement of `eat`'s body: if still above 0.7, consume one grain
(hunger −0.30). -/
def eatGrain (a : Agent) : Agent :=
  if 0.7 < a.hunger ∧ 0 < lget a.inv ITEM_GRAIN then
    { a with inv := ladd a.inv ITEM_GRAIN (-1), hunger := a.hunger - 0.30 }
  else a

/-- `eat`: above hunger 0.7, consume one fish (−0.35) and, if still above
0.7, one grain (−0.30); floor hunger at 0. -/
def eat (a : Agent) : Agent :=
  if a.hunger ≤ 0.7 then a
  else
    let a2 := eatGrain (eatFish a)
    if a2.hunger < 0 then { a2 with hunger := 0 } else a2

/-- `apprenticeship`: children aged 10..16 adopt the household parent's
vocation with probability 0.10.  Receives the current agent list (the source
reads `sim.agents[pid].vocation_id`; if `pid` is the agent itself the read
vocation is its own, which the in-loop mutations never change). -/
def apprenticeship (seed day : Nat) (agents : List Agent)
    (households : List Household) (a : Agent) : Agent :=
  if a.age < 10 ∨ 16 < a.age then a
  else
    let hh := households.getD a.household_id default
    if hh.parent_id < 0 then a
    else
      let pid := hh.parent_id
      if pid < 0 ∨ (agents.length : Int) ≤ pid then a
      else
        let pv := (agents.getD pid.toNat default).vocation_id
        if rng_f01 seed a.x a.y (day ^^^ 0xA22E11) < 0.10 then
          { a with vocation_id := pv }
        else a

/-- One op of `exec_task` (with `move_to_tag` and `roam` in the source's
fast mode: fatigue bookkeeping only). -/
def exec_op (settlements : List Settlement) (households : List Household)
    (st : Agent × List Int) (op : OpDef) : Agent × List Int :=
  let a := st.1
  let pool := st.2
  if op.kind = OP_MOVE_TO then
    ({ a with fatigue := a.fatigue + 0.002 }, pool)
  else if op.kind = OP_GATHER then
    let rk := op.arg_j
    let gp := gather pool rk op.arg_i
    let got := gp.1
    let a1 :=
      if rk = RES_FISH then { a with inv := ladd a.inv ITEM_FISH got }
      else if rk = RES_GRAIN then { a with inv := ladd a.inv ITEM_GRAIN got }
      else if rk = RES_WOOD then { a with inv := ladd a.inv ITEM_WOOD got }
      else if rk = RES_CLAY then { a with inv := ladd a.inv ITEM_CLAY got }
      else if rk = RES_COPPER then { a with inv := ladd a.inv ITEM_COPPER got }
      else if rk = RES_TIN then { a with inv := ladd a.inv ITEM_TIN got }
      else a
    (a1, gp.2)
  else if op.kind = OP_CRAFT then (craft_item a op.arg_j op.arg_i, pool)
  else if op.kind = OP_TRADE then (trade settlements households a, pool)
  else if op.kind = OP_REST then
    let f : ℚ := a.fatigue - 0.2
    ({ a with fatigue := if f < 0 then 0 else f }, pool)
  else if op.kind = OP_ROAM then
    ({ a with fatigue := a.fatigue + 0.001 * (op.arg_i : ℚ) }, pool)
  else (a, pool)

def exec_task (settlements : List Settlement) (households : List Household)
    (a : Agent) (pool : List Int) (t : TaskDef) : Agent × List Int :=
  t.ops.foldl (exec_op settlements households) (a, pool)

/-! ## Role switching -/

def invTotal (agents : List Agent) (it : Nat) : Int :=
  agents.foldl (fun acc a => if a.health ≤ 0 then acc else acc + lget a.inv it) 0

def aliveCount (agents : List Agent) : Nat :=
  agents.foldl (fun acc a => if a.health ≤ 0 then acc else acc + 1) 0

/-- The target-vocation choice of `role_switching`: four sequential `if`
statements (not `elif`), each later successful check overwriting the earlier
choice. -/
def roleTarget (tv : List VocationDef) (pc_grain pc_fish pc_tool pc_pot : ℚ) :
    Int :=
  let farmer_id := vocFind tv "farmer"
  let fisher_id := vocFind tv "fisher"
  let smith_id := vocFind tv "smith"
  let potter_id := vocFind tv "potter"
  let t0 : Int := -1
  let t1 := if 0 ≤ farmer_id ∧ pc_grain < 3 then farmer_id else t0
  let t2 :=
    if 0 ≤ fisher_id ∧ pc_fish < 2 ∧ (t1 < 0 ∨ pc_fish < pc_grain) then fisher_id
    else t1
  let t3 := if 0 ≤ smith_id ∧ pc_tool < 0.6 then smith_id else t2
  let t4 := if 0 ≤ potter_id ∧ pc_pot < 0.6 then potter_id else t3
  t4

/-- The switching loop of `role_switching` over agent indices, threading the
`switched` counter; stops early once `lim = alive/50 + 1` switches happened. -/
def roleLoop (seed day : Nat) (target : Int) (lim : Nat)
    (households : List Household) :
    Nat → Nat → Nat → List Agent → List Agent × Nat
  | 0, _, switched, agents => (agents, switched)
  | fuel + 1, i, switched, agents =>
    if i < agents.length then
      let a := agents.getD i default
      if a.health ≤ 0 then
        roleLoop seed day target lim households fuel (i + 1) switched agents
      else if a.age < 17 then
        roleLoop seed day target lim households fuel (i + 1) switched agents
      else if a.vocation_id = target then
        roleLoop seed day target lim households fuel (i + 1) switched agents
      else if (households.getD a.household_id default).parent_id = (i : Int) then
        roleLoop seed day target lim households fuel (i + 1) switched agents
      else if rng_f01 seed a.x a.y (day ^^^ 0x5A17C9) < 0.05 then
        let agents' := agents.set i { a with vocation_id := target }
        let switched' := switched + 1
        if lim ≤ switched' then (agents', switched')
        else roleLoop seed day target lim households fuel (i + 1) switched' agents'
      else
        roleLoop seed day target lim households fuel (i + 1) switched agents
    else (agents, switched)

/-- `role_switching`.  The one-line success report printed by the source has
no effect on the simulation state and is not modeled. -/
def role_switching (s : Sim) : Sim :=
  if s.switch_every_days = 0 then s
  else if ¬(s.day % s.switch_every_days = 0) then s
  else
    let alive := aliveCount s.agents
    if alive = 0 then s
    else
      let pc_grain := (invTotal s.agents ITEM_GRAIN : ℚ) / (alive : ℚ)
      let pc_fish := (invTotal s.agents ITEM_FISH : ℚ) / (alive : ℚ)
      let pc_tool := (invTotal s.agents ITEM_TOOL : ℚ) / (alive : ℚ)
      let pc_pot := (invTotal s.agents ITEM_POT : ℚ) / (alive : ℚ)
      let target := roleTarget s.voc_table pc_grain pc_fish pc_tool pc_pot
      if target < 0 then s
      else
        let lim := alive / 50 + 1
        let res := roleLoop s.seed s.day target lim s.households
          s.agents.length 0 0 s.agents
        { s with agents := res.1 }

/-! ## Day stepper (`sim_step`) -/

/-- The seasonal regeneration multiplier of `sim_step` (`fishMul`/`grainMul`;
every other resource keeps 1.0). -/
def seasonMul (season rk : Nat) : ℚ :=
  if rk = RES_FISH then (if season = SEASON_WINTER then 0.70 else 1.0)
  else if rk = RES_GRAIN then
    (if season = SEASON_WINTER then 0.30
     else if season = SEASON_SUMMER ∨ season = SEASON_AUTUMN then 1.0 else 0.70)
  else 1.0

def qget0 (l : List ℚ) (i : Nat) : ℚ := l.getD i 0

/-- Global resource regeneration:
`pool[rk] += int(renew[rk] * mul * 255.0 * scale)` for each of the 14 kinds. -/
def regenPool (renew : List ℚ) (season : Nat) (scale : Nat)
    (pool : List Int) : List Int :=
  (List.range RES_MAX).foldl
    (fun p rk =>
      ladd p rk (pyTrunc (qget0 renew rk * seasonMul season rk * 255.0
        * (scale : ℚ))))
    pool

/-- `if (sim.day % 360) == 0: a.age += 1`. -/
def driftAge (day : Nat) (a : Agent) : Agent :=
  if day % 360 = 0 then { a with age := a.age + 1 } else a

/-- `a.hunger += 0.18` capped at 1.0. -/
def driftHunger (a : Agent) : Agent :=
  let h : ℚ := a.hunger + 0.18
  { a with hunger := if 1 < h then 1 else h }

/-- `a.fatigue -= 0.08` floored at 0. -/
def driftFatigue (a : Agent) : Agent :=
  let f : ℚ := a.fatigue - 0.08
  { a with fatigue := if f < 0 then 0 else f }

/-- Starvation damage: `a.health -= 0.01` floored at 0. -/
def starve (a : Agent) : Agent :=
  let hl : ℚ := a.health - 0.01
  { a with health := if hl < 0 then 0 else hl }

/-- Exhaustion rest: `a.fatigue -= 0.20` floored at 0. -/
def exhaustRest (a : Agent) : Agent :=
  let f2 : ℚ := a.fatigue - 0.20
  { a with fatigue := if f2 < 0 then 0 else f2 }

/-- The needs-drift / eat / apprenticeship prefix of the per-agent body. -/
def preAgent (seed day : Nat) (agents : List Agent)
    (households : List Household) (a : Agent) : Agent :=
  apprenticeship seed day agents households
    (eat (driftFatigue (driftHunger (driftAge day a))))

/-- The per-agent body of `sim_step`'s loop: aging, needs drift, eating,
apprenticeship, the starvation and exhaustion short-circuits, then the task
pick and execution (or the idle drift with occasional trade). -/
def stepAgentCore (seed day : Nat) (tv : List VocationDef)
    (settlements : List Settlement) (households : List Household) (i : Nat)
    (agents : List Agent) (pool : List Int) (a : Agent) : Agent × List Int :=
  let a1 := preAgent seed day agents households a
  if 0.95 < a1.hunger then (starve a1, pool)
  else if 0.90 ≤ a1.fatigue then (exhaustRest a1, pool)
  else
    match choose_task seed day tv a1 with
    | none =>
      let a2 := { a1 with fatigue := a1.fatigue + 0.003 }
      if i % 9 = 0 then (trade settlements households a2, pool) else (a2, pool)
    | some t => exec_task settlements households a1 pool t

/-- One index of the agent loop: skip the dead, process the rest, writing the
updated agent back at its index (in-place mutation in the source). -/
def agentStep (seed day : Nat) (tv : List VocationDef)
    (settlements : List Settlement) (households : List Household)
    (st : List Agent × List Int) (i : Nat) : List Agent × List Int :=
  let agents := st.1
  let pool := st.2
  let a := agents.getD i default
  if a.health ≤ 0 then st
  else
    let r := stepAgentCore seed day tv settlements households i agents pool a
    (agents.set i r.1, r.2)

/-- `sim_step`: advance the day, regenerate the pool, run every agent in id
order, then role switching. -/
def sim_step (s : Sim) : Sim :=
  let day := s.day + 1
  let season := world_season_kind day
  let scale := max 1000 (s.agents.length * 80)
  let pool := regenPool s.renew_per_day season scale s.resources_pool
  let res := (List.range s.agents.length).foldl
    (agentStep s.seed day s.voc_table s.settlements s.households)
    (s.agents, pool)
  role_switching { s with day := day, resources_pool := res.2, agents := res.1 }

/-- The day loop of `main`: `for _ in range(days): sim_step(sim)`. -/
def runDays (s : Sim) : Nat → Sim
  | 0 => s
  | n + 1 => runDays (sim_step s) n

/-! ## Simulator initialization (`sim_init_from_cfg`) -/

/-- The parsed configuration (defaults of the `ParsedConfig` dataclass). -/
structure ParsedConfig where
  seed : Nat := 1337
  days : Int := 120
  agent_count : Int := 220
  settlement_count : Int := 6
  cache_max : Int := 2048
  fish_renew : ℚ := 0.08
  grain_renew : ℚ := 0.06
  wood_renew : ℚ := 0.03
  clay_renew : ℚ := 0.02
  copper_renew : ℚ := 0.005
  tin_renew : ℚ := 0.002
  fire_renew : ℚ := 0.10
  plant_fiber_renew : ℚ := 0.04
  cattle_renew : ℚ := 0.010
  sheep_renew : ℚ := 0.010
  pig_renew : ℚ := 0.010
  charcoal_renew : ℚ := 0.005
  religion_renew : ℚ := 0.002
  tribalism_renew : ℚ := 0.0005
  voc_table : List VocationDef := []
  snapshot_every_days : Int := 30
  map_every_days : Int := 0

/-- The `renew_per_day` vector assembled by `sim_init_from_cfg` (indices
`RES_FISH .. RES_TRIBALISM`). -/
def cfgRenew (cfg : ParsedConfig) : List ℚ :=
  [cfg.fish_renew, cfg.grain_renew, cfg.wood_renew, cfg.clay_renew,
   cfg.copper_renew, cfg.tin_renew, cfg.fire_renew, cfg.plant_fiber_renew,
   cfg.cattle_renew, cfg.sheep_renew, cfg.pig_renew, cfg.charcoal_renew,
   cfg.religion_renew, cfg.tribalism_renew]

def pick_spawn (seed i : Nat) : Nat × Nat :=
  let h1 := brz_hash_u32 i seed 0xABCDE123
  let h2 := brz_hash_u32 i seed 0xCDEF2345
  (h1 % (WORLD_CELLS_X - 200) + 100, h2 % (WORLD_CELLS_Y - 200) + 100)

def mkSettlement (seed i : Nat) : Settlement :=
  let h1 := brz_hash_u32 i seed 0x5E77A11A
  let h2 := brz_hash_u32 i seed 0x5E77B22B
  let x := h1 % (WORLD_CELLS_X - 2000) + 1000
  let y := h2 % (WORLD_CELLS_Y - 2000) + 1000
  let r : ℚ := ((brz_hash_u32 i seed 0xC0DE % 100 : Nat) : ℚ) / 100
  let val0 := List.replicate ITEM_MAX (1 : ℚ)
  let val1 := val0.set ITEM_FISH (1 + 0.5 * r)
  let val2 := val1.set ITEM_GRAIN (1 + 0.5 * (1 - r))
  let val3 := val2.set ITEM_POT (1 + 0.4 * r)
  let val4 := val3.set ITEM_TOOL (1.2 + 0.6 * r)
  let val5 := val4.set ITEM_BRONZE (1.3 + 0.7 * r)
  { x := x, y := y, val := val5 }

/-- Initial state of agent `i` (spawn, age, vocation draw, needs). -/
def initAgent (seed : Nat) (tv : List VocationDef) (household_count : Nat)
    (i : Nat) : Agent :=
  let xy := pick_spawn seed i
  let age := 8 + brz_hash_u32 i seed 0xA9E % 35
  let default_voc : Int := if tv = [] then -1 else 0
  let farmer_id := vocFind tv "farmer"
  let fisher_id := vocFind tv "fisher"
  let potter_id := vocFind tv "potter"
  let smith_id := vocFind tv "smith"
  let trader_id := vocFind tv "trader"
  let rr := brz_hash_u32 i seed 0xB00C % 100
  let vid :=
    if rr < 45 ∧ 0 ≤ farmer_id then farmer_id
    else if rr < 70 ∧ 0 ≤ fisher_id then fisher_id
    else if rr < 85 ∧ 0 ≤ potter_id then potter_id
    else if rr < 95 ∧ 0 ≤ smith_id then smith_id
    else if 0 ≤ trader_id then trader_id
    else default_voc
  { x := xy.1, y := xy.2, vocation_id := vid, age := age,
    household_id := i % household_count,
    inv := List.replicate ITEM_MAX 0,
    hunger := 0.10, fatigue := 0.10, health := 1.0 }

/-- The oldest-member scan determining a household's parent. -/
def parentScan (h : Nat) : List Agent → Nat → Int × Int → Int × Int
  | [], _, acc => acc
  | a :: rest, i, acc =>
    if a.household_id = h ∧ acc.1 < (a.age : Int) then
      parentScan h rest (i + 1) ((a.age : Int), (i : Int))
    else parentScan h rest (i + 1) acc

def parentFor (agents : List Agent) (h : Nat) : Int :=
  (parentScan h agents 0 (-1, -1)).2

def sim_init_from_cfg (cfg : ParsedConfig) : Sim :=
  let seed := cfg.seed
  let settlement_count := (max 1 cfg.settlement_count).toNat
  let settlements := (List.range settlement_count).map (mkSettlement seed)
  let agent_count := (max 1 cfg.agent_count).toNat
  let household_count := (agent_count + 4) / 5
  let agents := (List.range agent_count).map
    (initAgent seed cfg.voc_table household_count)
  let households := (List.range household_count).map
    (fun i => ({ id := i, settlement_id := i % settlement_count,
                 parent_id := parentFor agents i } : Household))
  let scale : Int := max 1000 (cfg.agent_count * 80)
  let resources_pool := (List.range RES_MAX).map
    (fun rk => pyTrunc (qget0 (cfgRenew cfg) rk * 255.0 * 30.0 * (scale : ℚ)))
  { seed := seed
    settlement_count := settlement_count
    renew_per_day := cfgRenew cfg
    cache_max := (max 1 cfg.cache_max).toNat
    cache := []
    settlements := settlements
    resources_pool := resources_pool
    households := households
    agents := agents
    voc_table := cfg.voc_table
    day := 0
    switch_every_days := 30 }

/-! ## Report data (`sim_report` / `sim_write_snapshot_json`)

Both emitters print the same aggregates (day, season name, alive count,
per-item inventory totals over living agents, per-vocation headcounts); the
formatted bytes are a fixed pure function of these values. -/

structure ReportData where
  day : Nat
  season : String
  alive : Nat
  inv : List Int
  voc_counts : List Nat
deriving DecidableEq

def reportData (s : Sim) : ReportData :=
  let t := s.agents.foldl
    (fun (acc : Nat × List Int × List Nat) a =>
      if a.health ≤ 0 then acc
      else
        let inv' := (List.range ITEM_MAX).foldl
          (fun l it => ladd l it (lget a.inv it)) acc.2.1
        let vc :=
          if 0 ≤ a.vocation_id ∧ a.vocation_id < (s.voc_table.length : Int) then
            acc.2.2.set a.vocation_id.toNat
              (acc.2.2.getD a.vocation_id.toNat 0 + 1)
          else acc.2.2
        (acc.1 + 1, inv', vc))
    (0, List.replicate ITEM_MAX 0, List.replicate s.voc_table.length 0)
  { day := s.day, season := season_name (world_season_kind s.day),
    alive := t.1, inv := t.2.1, voc_counts := t.2.2 }

/-! ## Claim C5: gather semantics and scenario E2 -/

theorem getD_set_ne' {α : Type} (l : List α) (i j : Nat) (x d : α)
    (h : j ≠ i) : (l.set i x).getD j d = l.getD j d := by
  induction l generalizing i j with
  | nil => rfl
  | cons b t ih =>
    cases i with
    | zero => cases j with
      | zero => exact absurd rfl h
      | succ j => rfl
    | succ i =>
      cases j with
      | zero => rfl
      | succ j => exact ih i j (fun hc => h (by rw [hc]))

theorem lget_set_self (l : List Int) (i : Nat) (x : Int) (h : i < l.length) :
    lget (l.set i x) i = x := by
  induction l generalizing i with
  | nil => simp at h
  | cons b t ih =>
    cases i with
    | zero => rfl
    | succ i => exact ih i (by simpa using h)

theorem lget_set_ne (l : List Int) (i j : Nat) (x : Int) (h : j ≠ i) :
    lget (l.set i x) j = lget l j := by
  induction l generalizing i j with
  | nil => rfl
  | cons b t ih =>
    cases i with
    | zero => cases j with
      | zero => exact absurd rfl h
      | succ j => rfl
    | succ i =>
      cases j with
      | zero => rfl
      | succ j => exact ih i j (fun hc => h (by rw [hc]))

/-- The E2 scenario: one agent, one day, a single vocation with a single
always-eligible `gather fish 5` task (an always-true rule: `prob 1.0`, which
every 24-bit roll in `[0,1)` satisfies). -/
def e2voc : VocationDef :=
  ⟨"gatherer", [⟨"work", [⟨OP_GATHER, 5, RES_FISH⟩]⟩],
   [⟨"r", { has_prob := true, prob := 1 }, "work", 1⟩]⟩

def e2cfg : ParsedConfig := { agent_count := 1, days := 1, voc_table := [e2voc] }

/-- Claim C5: a gather op takes `take = min(want, pool[r] div 20)` units,
decreases `pool[r]` by exactly `take * 20` (leaving other pools unchanged),
and adds `take` to the matching inventory slot exactly when the resource is
one of fish, grain, wood, clay, copper, tin (whose item ordinals coincide
with the resource ordinals 0..5); in scenario E2 the agent ends day 1 with
`inv.fish = min(5, pool_initial div 20) = 5` and the fish pool drops by
`take * 20 = 100` from its pre-gather (post-regeneration) value 632400. -/
theorem C5_gather_semantics (pool : List Int) (rk : Nat) (want : Int)
    (a : Agent) (settlements : List Settlement) (households : List Household)
    (hrk : rk < pool.length) :
    (gather pool rk want).1 = min want (Int.ediv (lget pool rk) 20)
    ∧ lget (gather pool rk want).2 rk
        = lget pool rk - (gather pool rk want).1 * 20
    ∧ (∀ j, j ≠ rk → lget (gather pool rk want).2 j = lget pool j)
    ∧ exec_op settlements households (a, pool) ⟨OP_GATHER, want, rk⟩
        = ((if rk ≤ 5 then { a with inv := ladd a.inv rk (gather pool rk want).1 }
            else a), (gather pool rk want).2)
    ∧ lget ((runDays (sim_init_from_cfg e2cfg) 1).agents.getD 0 default).inv
          ITEM_FISH
        = min 5 (Int.ediv (lget (sim_init_from_cfg e2cfg).resources_pool
            RES_FISH) 20)
    ∧ lget (regenPool (sim_init_from_cfg e2cfg).renew_per_day
          (world_season_kind 1)
          (max 1000 ((sim_init_from_cfg e2cfg).agents.length * 80))
          (sim_init_from_cfg e2cfg).resources_pool) RES_FISH = 632400
    ∧ lget (runDays (sim_init_from_cfg e2cfg) 1).resources_pool RES_FISH
        = 632400 - 5 * 20 := by
  refine ⟨?_, ?_, ?_, ?_, by decide, by decide, by decide⟩
  · show (if want < Int.ediv (lget pool rk) 20 then want
        else Int.ediv (lget pool rk) 20) = _
    split_ifs with h
    · exact (min_eq_left h.le).symm
    · exact (min_eq_right (not_lt.mp h)).symm
  · exact lget_set_self pool rk _ hrk
  · intro j hj
    exact lget_set_ne pool rk j _ hj
  · have hpair : ∀ a1 : Agent,
        (a1, (gather pool rk want).2)
          = ((a1 : Agent), (pool.set rk (lget pool rk
              - (gather pool rk want).1 * 20))) := by
      intro a1; rfl
    simp only [exec_op, OP_GATHER, OP_MOVE_TO, OP_CRAFT, OP_TRADE, OP_REST,
      OP_ROAM]
    norm_num
    rcases rk with _ | _ | _ | _ | _ | _ | n <;>
      simp [RES_FISH, RES_GRAIN, RES_WOOD, RES_CLAY, RES_COPPER, RES_TIN,
        ITEM_FISH, ITEM_GRAIN, ITEM_WOOD, ITEM_CLAY, ITEM_COPPER, ITEM_TIN]

/-- Witness for C5 at a concrete input. -/
theorem C5_gather_semantics_witness :
    (0 : Nat) < ([100] : List Int).length ∧
    (gather [100] 0 3).1 = min 3 (Int.ediv (lget [100] 0) 20) :=
  ⟨by decide, (C5_gather_semantics [100] 0 3 default [] [] (by decide)).1⟩

/-! ## Claim C6: role-switching target priority -/

def c6tv : List VocationDef := [⟨"farmer", [], []⟩, ⟨"smith", [], []⟩]

/-- Counterexample to claim C6 as stated: with a farmer vocation present,
per-capita grain `0 < 3.0` (farmer clause fires), no fisher vocation (so the
fisher clause cannot apply), a smith vocation present and per-capita tool
`0 < 0.6`, the chosen target is the smith, not the farmer: the four checks
are sequential `if`s and a later successful check overrides an earlier one. -/
theorem C6_role_priority_cex :
    vocFind c6tv "farmer" = 0 ∧ ((0 : ℚ) < 3) ∧ vocFind c6tv "fisher" = -1
    ∧ vocFind c6tv "smith" = 1 ∧ ((0 : ℚ) < 0.6)
    ∧ roleTarget c6tv 0 2 0 1 = 1 ∧ (1 : Int) ≠ 0 := by
  refine ⟨by decide, by decide, by decide, by decide, by decide, by decide,
    by decide⟩

/-- Claim C6 (amended): the target checks run in the order farmer, fisher,
smith, potter with each later successful check overriding the earlier choice;
hence the target is the farmer exactly in the stated situation (farmer exists
and per-capita grain < 3, fisher clause inapplicable) provided additionally
that neither the smith clause (smith exists and per-capita tool < 0.6) nor
the potter clause (potter exists and per-capita pot < 0.6) fires. -/
theorem C6_role_priority (tv : List VocationDef) (g f tl pt : ℚ)
    (hf : 0 ≤ vocFind tv "farmer") (hg : g < 3)
    (hfisher : ¬(0 ≤ vocFind tv "fisher" ∧ f < 2 ∧ f < g))
    (hsmith : ¬(0 ≤ vocFind tv "smith" ∧ tl < 0.6))
    (hpotter : ¬(0 ≤ vocFind tv "potter" ∧ pt < 0.6)) :
    roleTarget tv g f tl pt = vocFind tv "farmer" := by
  simp only [roleTarget]
  rw [if_neg hpotter, if_neg hsmith]
  rw [if_neg (by
    rintro ⟨hfi, hf2, hor⟩
    rcases hor with hlt | hfg
    · rw [if_pos ⟨hf, hg⟩] at hlt
      omega
    · exact hfisher ⟨hfi, hf2, hfg⟩)]
  rw [if_pos ⟨hf, hg⟩]

/-- Witness for (the amended) C6 at a concrete input. -/
theorem C6_role_priority_witness :
    (0 ≤ vocFind [⟨"farmer", [], []⟩] "farmer") ∧ ((0 : ℚ) < 3) ∧
    roleTarget [⟨"farmer", [], []⟩] 0 2 1 1 = vocFind [⟨"farmer", [], []⟩] "farmer" :=
  ⟨by decide, by decide,
    C6_role_priority [⟨"farmer", [], []⟩] 0 2 1 1 (by decide) (by decide)
      (by decide) (by decide) (by decide)⟩

/-! ## Claim C7: role switching never moves a household parent -/

theorem roleLoop_parent_fixed (seed day : Nat) (target : Int) (lim : Nat)
    (households : List Household) (i : Nat) :
    ∀ (fuel j switched : Nat) (agents : List Agent),
      (households.getD ((agents.getD i default).household_id) default).parent_id
          = (i : Int) →
      (roleLoop seed day target lim households fuel j switched agents).1.getD i
          default
        = agents.getD i default := by
  intro fuel
  induction fuel with
  | zero => intro j switched agents h; rfl
  | succ fuel ih =>
    intro j switched agents h
    show (roleLoop seed day target lim households (fuel + 1) j switched
      agents).1.getD i default = agents.getD i default
    rw [roleLoop]
    by_cases hj : j < agents.length
    · rw [if_pos hj]
      by_cases h1 : (agents.getD j default).health ≤ 0
      · rw [if_pos h1]; exact ih j.succ switched agents h
      rw [if_neg h1]
      by_cases h2 : (agents.getD j default).age < 17
      · rw [if_pos h2]; exact ih j.succ switched agents h
      rw [if_neg h2]
      by_cases h3 : (agents.getD j default).vocation_id = target
      · rw [if_pos h3]; exact ih j.succ switched agents h
      rw [if_neg h3]
      by_cases h4 : (households.getD ((agents.getD j default).household_id)
          default).parent_id = (j : Int)
      · rw [if_pos h4]; exact ih j.succ switched agents h
      rw [if_neg h4]
      by_cases h5 : rng_f01 seed (agents.getD j default).x
          (agents.getD j default).y (day ^^^ 0x5A17C9) < 0.05
      · rw [if_pos h5]
        have hij : j ≠ i := by
          intro hc
          subst hc
          exact h4 h
        have hset : ∀ x : Agent, (agents.set j x).getD i default
            = agents.getD i default := by
          intro x
          exact getD_set_ne' agents j i x default (fun hc => hij hc.symm)
        by_cases h6 : lim ≤ switched + 1
        · rw [if_pos h6]
          exact hset _
        · rw [if_neg h6]
          rw [ih j.succ (switched + 1) _ (by rw [hset]; exact h)]
          exact hset _
      · rw [if_neg h5]; exact ih j.succ switched agents h
    · rw [if_neg hj]

/-- Claim C7: role switching never changes the `vocation_id` of a household's
parent agent: in any simulation state, an agent `i` that is the parent of its
own household has the same agent record (in particular the same
`vocation_id`) after `role_switching` as before. -/
theorem C7_parent_stable (s : Sim) (i : Nat)
    (hparent : (s.households.getD ((s.agents.getD i default).household_id)
        default).parent_id = (i : Int)) :
    ((role_switching s).agents.getD i default).vocation_id
      = (s.agents.getD i default).vocation_id := by
  simp only [role_switching]
  split_ifs with h1 h2 h3 h4
  · rfl
  · rfl
  · rfl
  · change ((roleLoop s.seed s.day _ _ s.households s.agents.length 0 0
        s.agents).1.getD i default).vocation_id = _
    rw [roleLoop_parent_fixed s.seed s.day _ _ s.households i s.agents.length
      0 0 s.agents hparent]
  · rfl

/-- Witness for C7 at a concrete input. -/
theorem C7_parent_stable_witness :
    ((([⟨0, 0, 0⟩] : List Household).getD
        ((([({ household_id := 0, age := 30 } : Agent)] : List Agent).getD 0
          default).household_id) default).parent_id = ((0 : Nat) : Int)) ∧
    ((role_switching
        { seed := 1, settlement_count := 1, renew_per_day := [],
          cache_max := 16, cache := [], settlements := [],
          resources_pool := [], households := [⟨0, 0, 0⟩],
          agents := [{ household_id := 0, age := 30 }],
          voc_table := [⟨"farmer", [], []⟩], day := 30,
          switch_every_days := 30 }).agents.getD 0 default).vocation_id
      = ((([({ household_id := 0, age := 30 } : Agent)] : List Agent).getD 0
          default).vocation_id) :=
  ⟨by decide,
    C7_parent_stable
      { seed := 1, settlement_count := 1, renew_per_day := [],
        cache_max := 16, cache := [], settlements := [],
        resources_pool := [], households := [⟨0, 0, 0⟩],
        agents := [{ household_id := 0, age := 30 }],
        voc_table := [⟨"farmer", [], []⟩], day := 30,
        switch_every_days := 30 } 0 (by decide)⟩

/-! ## Claim C2: determinism and cache noninterference

The embedding of the day-stepper is a pure function of the simulator value
(every RNG consultation is `rng_u32`/`rng_f01` on explicit
`(seed, x, y, day xor salt)` inputs), so two runs from the same parsed
configuration coincide definitionally; the substantial content is the frame
property that `sim_step` neither reads nor writes any state outside the
simulator value it is given — in particular the chunk cache, the one
component the stepper's fast mode never consults. -/

theorem role_switching_cache (s : Sim) (c : CacheSt) :
    role_switching { s with cache := c } = { role_switching s with cache := c } := by
  cases s
  simp only [role_switching]
  try dsimp only
  split_ifs <;> rfl

theorem sim_step_cache (s : Sim) (c : CacheSt) :
    sim_step { s with cache := c } = { sim_step s with cache := c } := by
  cases s
  simp only [sim_step]
  try dsimp only
  rw [← role_switching_cache]

theorem sim_step_cache_const (s : Sim) : (sim_step s).cache = s.cache := by
  cases s
  simp only [sim_step, role_switching]
  try dsimp only
  split_ifs <;> rfl

theorem runDays_cache (n : Nat) :
    ∀ (s : Sim) (c : CacheSt),
      runDays { s with cache := c } n = { runDays s n with cache := c } := by
  induction n with
  | zero => intro s c; rfl
  | succ n ih =>
    intro s c
    rw [runDays, runDays, sim_step_cache]
    exact ih _ c

theorem runDays_cache_const (n : Nat) :
    ∀ s : Sim, (runDays s n).cache = s.cache := by
  induction n with
  | zero => intro s; rfl
  | succ n ih =>
    intro s
    rw [runDays, ih, sim_step_cache_const]

/-- Claim C2: the simulation is fully deterministic — two runs of the
day-stepper from the same parsed configuration yield identical states after
every day, hence identical report and snapshot data (the emitted bytes are a
fixed pure function of `reportData`); and no step consults or mutates any
state outside the explicit RNG inputs and the simulator value: replacing the
chunk-cache component by arbitrary contents changes nothing else in the run,
and the run leaves it untouched. -/
theorem C2_determinism (cfg : ParsedConfig) (n : Nat) (c : CacheSt) :
    runDays (sim_init_from_cfg cfg) n = runDays (sim_init_from_cfg cfg) n
    ∧ reportData (runDays (sim_init_from_cfg cfg) n)
        = reportData (runDays (sim_init_from_cfg cfg) n)
    ∧ runDays { sim_init_from_cfg cfg with cache := c } n
        = { runDays (sim_init_from_cfg cfg) n with cache := c }
    ∧ (runDays (sim_init_from_cfg cfg) n).cache = (sim_init_from_cfg cfg).cache :=
  ⟨rfl, rfl, runDays_cache n (sim_init_from_cfg cfg) c,
    runDays_cache_const n (sim_init_from_cfg cfg)⟩

/-! ## Claim C1: state invariants of the day stepper -/

/-- The per-agent invariant: needs within bounds (the fatigue *upper* bound
claimed by the spec fails on the code — see the counterexample — so it is not
part of the invariant), inventory non-negative. -/
def AgentOK (a : Agent) : Prop :=
  0 ≤ a.hunger ∧ a.hunger ≤ 1 ∧ 0 ≤ a.fatigue ∧ 0 ≤ a.health ∧ a.health ≤ 1
    ∧ ∀ v ∈ a.inv, 0 ≤ v

def PoolOK (p : List Int) : Prop := ∀ v ∈ p, 0 ≤ v

/-- Well-formedness of the parsed op table: every op amount (`gather` units,
`craft` count, `roam` steps) is non-negative.  The DSL grammar admits
negative literals, which break the claimed invariants (see the
counterexample discussion); the invariant holds for all programs with
non-negative amounts. -/
def OpsOK (tv : List VocationDef) : Prop :=
  ∀ voc ∈ tv, ∀ t ∈ voc.tasks, ∀ op ∈ t.ops, 0 ≤ op.arg_i

def RenewOK (l : List ℚ) : Prop := ∀ q ∈ l, 0 ≤ q

def SimOK (s : Sim) : Prop :=
  (∀ a ∈ s.agents, AgentOK a) ∧ PoolOK s.resources_pool ∧ OpsOK s.voc_table
    ∧ RenewOK s.renew_per_day

instance (tv : List VocationDef) : Decidable (OpsOK tv) := by
  unfold OpsOK; infer_instance

instance (l : List ℚ) : Decidable (RenewOK l) := by
  unfold RenewOK; infer_instance

theorem getD_prop {α : Type} {P : α → Prop} {l : List α} (h : ∀ v ∈ l, P v)
    {d : α} (hd : P d) (i : Nat) : P (l.getD i d) := by
  induction l generalizing i with
  | nil => exact hd
  | cons b t ih =>
    cases i with
    | zero => exact h b (List.mem_cons_self b t)
    | succ i => exact ih (fun v hv => h v (List.mem_cons_of_mem b hv)) i

theorem lget_nonneg {l : List Int} (h : ∀ v ∈ l, 0 ≤ v) (i : Nat) :
    0 ≤ lget l i :=
  getD_prop h (le_refl 0) i

theorem mem_set_of {α : Type} {P : α → Prop} {l : List α} {i : Nat} {x : α}
    (h : ∀ v ∈ l, P v) (hx : P x) : ∀ v ∈ l.set i x, P v := by
  intro v hv
  rcases List.mem_or_eq_of_mem_set hv with hv' | rfl
  · exact h v hv'
  · exact hx

theorem ladd_mem {l : List Int} {i : Nat} {d : Int} (h : ∀ v ∈ l, 0 ≤ v)
    (hd : 0 ≤ lget l i + d) : ∀ v ∈ ladd l i d, 0 ≤ v :=
  mem_set_of h hd

theorem lget_ladd_ne (l : List Int) (i j : Nat) (d : Int) (h : j ≠ i) :
    lget (ladd l i d) j = lget l j :=
  lget_set_ne l i j _ h

instance (a : Agent) : Decidable (AgentOK a) := by
  unfold AgentOK; infer_instance

theorem AgentOK_default : AgentOK (default : Agent) := by decide

theorem driftAge_ok {day : Nat} {a : Agent} (h : AgentOK a) :
    AgentOK (driftAge day a) := by
  unfold driftAge
  split_ifs <;> exact h

theorem driftHunger_ok {a : Agent} (h : AgentOK a) :
    AgentOK (driftHunger a) := by
  obtain ⟨h1, h2, h3, h4, h5, h6⟩ := h
  unfold driftHunger
  refine ⟨?_, ?_, h3, h4, h5, h6⟩ <;> dsimp only <;> split_ifs <;> linarith

theorem driftFatigue_ok {a : Agent} (h : AgentOK a) :
    AgentOK (driftFatigue a) := by
  obtain ⟨h1, h2, h3, h4, h5, h6⟩ := h
  unfold driftFatigue
  refine ⟨h1, h2, ?_, h4, h5, h6⟩
  dsimp only
  split_ifs <;> linarith

theorem starve_ok {a : Agent} (h : AgentOK a) : AgentOK (starve a) := by
  obtain ⟨h1, h2, h3, h4, h5, h6⟩ := h
  unfold starve
  refine ⟨h1, h2, h3, ?_, ?_, h6⟩ <;> dsimp only <;> split_ifs <;> linarith

theorem exhaustRest_ok {a : Agent} (h : AgentOK a) :
    AgentOK (exhaustRest a) := by
  obtain ⟨h1, h2, h3, h4, h5, h6⟩ := h
  unfold exhaustRest
  refine ⟨h1, h2, ?_, h4, h5, h6⟩
  dsimp only
  split_ifs <;> linarith

theorem eatFish_inv {a : Agent} (h : ∀ v ∈ a.inv, 0 ≤ v) :
    ∀ v ∈ (eatFish a).inv, 0 ≤ v := by
  unfold eatFish
  split_ifs with hf
  · exact ladd_mem h (by omega)
  · exact h

theorem eatFish_hunger_le (a : Agent) : (eatFish a).hunger ≤ a.hunger := by
  unfold eatFish
  split_ifs <;> (try dsimp only) <;> linarith

theorem eatFish_fatigue (a : Agent) : (eatFish a).fatigue = a.fatigue := by
  unfold eatFish; split_ifs <;> rfl

theorem eatFish_health (a : Agent) : (eatFish a).health = a.health := by
  unfold eatFish; split_ifs <;> rfl

theorem eatGrain_inv {a : Agent} (h : ∀ v ∈ a.inv, 0 ≤ v) :
    ∀ v ∈ (eatGrain a).inv, 0 ≤ v := by
  unfold eatGrain
  split_ifs with hg
  · exact ladd_mem h (by have := hg.2; omega)
  · exact h

theorem eatGrain_hunger_le (a : Agent) : (eatGrain a).hunger ≤ a.hunger := by
  unfold eatGrain
  split_ifs <;> (try dsimp only) <;> linarith

theorem eatGrain_fatigue (a : Agent) : (eatGrain a).fatigue = a.fatigue := by
  unfold eatGrain; split_ifs <;> rfl

theorem eatGrain_health (a : Agent) : (eatGrain a).health = a.health := by
  unfold eatGrain; split_ifs <;> rfl

theorem eat_ok {a : Agent} (h : AgentOK a) : AgentOK (eat a) := by
  obtain ⟨h1, h2, h3, h4, h5, h6⟩ := h
  unfold eat
  have hle : (eatGrain (eatFish a)).hunger ≤ a.hunger :=
    le_trans (eatGrain_hunger_le (eatFish a)) (eatFish_hunger_le a)
  have hfa : (eatGrain (eatFish a)).fatigue = a.fatigue := by
    rw [eatGrain_fatigue, eatFish_fatigue]
  have hhe : (eatGrain (eatFish a)).health = a.health := by
    rw [eatGrain_health, eatFish_health]
  have hin : ∀ v ∈ (eatGrain (eatFish a)).inv, 0 ≤ v :=
    eatGrain_inv (eatFish_inv h6)
  dsimp only
  split_ifs with hb hneg
  · exact ⟨h1, h2, h3, h4, h5, h6⟩
  · exact ⟨le_refl 0, by norm_num, by dsimp only; rw [hfa]; exact h3,
      by dsimp only; rw [hhe]; exact h4, by dsimp only; rw [hhe]; exact h5,
      hin⟩
  · exact ⟨not_lt.mp hneg, le_trans hle h2, hfa ▸ h3, hhe ▸ h4, hhe ▸ h5, hin⟩

theorem craft_once_ok {a : Agent} {item : Nat} (h : AgentOK a) :
    AgentOK (craft_once a item) := by
  obtain ⟨h1, h2, h3, h4, h5, h6⟩ := h
  unfold craft_once
  split_ifs with hi1 hc1 hi2 hc2 hi3 hc3 <;>
    try exact ⟨h1, h2, h3, h4, h5, h6⟩
  · -- pot: clay -2, wood -1, pot +1
    obtain ⟨hcl, hwd⟩ := hc1
    refine ⟨h1, h2, by dsimp only; linarith, h4, h5, ?_⟩
    dsimp only
    have s1 : ∀ v ∈ ladd a.inv ITEM_CLAY (-2), 0 ≤ v :=
      ladd_mem h6 (by omega)
    have e1 : lget (ladd a.inv ITEM_CLAY (-2)) ITEM_WOOD
        = lget a.inv ITEM_WOOD := lget_ladd_ne _ _ _ _ (by decide)
    have s2 : ∀ v ∈ ladd (ladd a.inv ITEM_CLAY (-2)) ITEM_WOOD (-1), 0 ≤ v :=
      ladd_mem s1 (by rw [e1]; omega)
    refine ladd_mem s2 ?_
    have := lget_nonneg s2 ITEM_POT
    omega
  · -- bronze: copper -1, tin -1, wood -2, bronze +1
    obtain ⟨hcu, htn, hwd⟩ := hc2
    refine ⟨h1, h2, by dsimp only; linarith, h4, h5, ?_⟩
    dsimp only
    have s1 : ∀ v ∈ ladd a.inv ITEM_COPPER (-1), 0 ≤ v :=
      ladd_mem h6 (by omega)
    have e1 : lget (ladd a.inv ITEM_COPPER (-1)) ITEM_TIN
        = lget a.inv ITEM_TIN := lget_ladd_ne _ _ _ _ (by decide)
    have s2 : ∀ v ∈ ladd (ladd a.inv ITEM_COPPER (-1)) ITEM_TIN (-1), 0 ≤ v :=
      ladd_mem s1 (by rw [e1]; omega)
    have e2 : lget (ladd (ladd a.inv ITEM_COPPER (-1)) ITEM_TIN (-1))
        ITEM_WOOD = lget a.inv ITEM_WOOD := by
      rw [lget_ladd_ne _ _ _ _ (by decide), lget_ladd_ne _ _ _ _ (by decide)]
    have s3 : ∀ v ∈ ladd (ladd (ladd a.inv ITEM_COPPER (-1)) ITEM_TIN (-1))
        ITEM_WOOD (-2), 0 ≤ v := ladd_mem s2 (by rw [e2]; omega)
    refine ladd_mem s3 ?_
    have := lget_nonneg s3 ITEM_BRONZE
    omega
  · -- tool: bronze -1, tool +1
    refine ⟨h1, h2, by dsimp only; linarith, h4, h5, ?_⟩
    dsimp only
    have s1 : ∀ v ∈ ladd a.inv ITEM_BRONZE (-1), 0 ≤ v :=
      ladd_mem h6 (by omega)
    refine ladd_mem s1 ?_
    have := lget_nonneg s1 ITEM_TOOL
    omega

theorem craft_item_ok {a : Agent} {item : Nat} {amount : Int}
    (h : AgentOK a) : AgentOK (craft_item a item amount) := by
  unfold craft_item
  induction (List.range amount.toNat) generalizing a with
  | nil => exact h
  | cons k rest ih => exact ih (craft_once_ok h)

theorem tradeWant_ok {st : Settlement} {a : Agent} {want : Nat}
    (h : AgentOK a) : AgentOK (tradeWant st a want) := by
  obtain ⟨h1, h2, h3, h4, h5, h6⟩ := h
  unfold tradeWant
  dsimp only
  split_ifs with hh hof hval
  · exact ⟨h1, h2, h3, h4, h5, h6⟩
  · exact ⟨h1, h2, h3, h4, h5, h6⟩
  · refine ⟨h1, h2, by dsimp only; linarith, h4, h5, ?_⟩
    dsimp only
    have s1 : ∀ v ∈ ladd a.inv (bestOffer st.val a.inv want) (-2), 0 ≤ v :=
      ladd_mem h6 (by omega)
    exact ladd_mem s1 (by have := lget_nonneg s1 want; omega)
  · exact ⟨h1, h2, h3, h4, h5, h6⟩

theorem trade_ok {settlements : List Settlement} {households : List Household}
    {a : Agent} (h : AgentOK a) :
    AgentOK (trade settlements households a) := by
  unfold trade
  exact tradeWant_ok (tradeWant_ok (tradeWant_ok (tradeWant_ok h)))

theorem gather_ok {pool : List Int} {rk : Nat} {want : Int}
    (hp : PoolOK pool) (hw : 0 ≤ want) :
    0 ≤ (gather pool rk want).1 ∧ PoolOK (gather pool rk want).2 := by
  have hp0 : 0 ≤ lget pool rk := lget_nonneg hp rk
  have hdm : 20 * Int.ediv (lget pool rk) 20 + Int.emod (lget pool rk) 20
      = lget pool rk := Int.ediv_add_emod _ _
  have hmod : 0 ≤ Int.emod (lget pool rk) 20 :=
    Int.emod_nonneg _ (by norm_num)
  have hmlt : Int.emod (lget pool rk) 20 < 20 :=
    Int.emod_lt_of_pos _ (by norm_num)
  unfold gather
  dsimp only
  constructor
  · split_ifs <;> omega
  · apply mem_set_of hp
    split_ifs <;> omega

theorem addItem_ok {a : Agent} {it : Nat} {got : Int} (h : AgentOK a)
    (hg : 0 ≤ got) : AgentOK { a with inv := ladd a.inv it got } := by
  obtain ⟨h1, h2, h3, h4, h5, h6⟩ := h
  refine ⟨h1, h2, h3, h4, h5, ?_⟩
  exact ladd_mem h6 (by have := lget_nonneg h6 it; omega)

theorem exec_op_ok {settlements : List Settlement}
    {households : List Household} {st : Agent × List Int} {op : OpDef}
    (h : AgentOK st.1) (hp : PoolOK st.2) (harg : 0 ≤ op.arg_i) :
    AgentOK (exec_op settlements households st op).1
    ∧ PoolOK (exec_op settlements households st op).2 := by
  obtain ⟨a, pool⟩ := st
  obtain ⟨h1, h2, h3, h4, h5, h6⟩ := h
  have hg := @gather_ok pool op.arg_j op.arg_i hp harg
  unfold exec_op
  dsimp only
  by_cases k1 : op.kind = OP_MOVE_TO
  · rw [if_pos k1]
    exact ⟨⟨h1, h2, by dsimp only; linarith, h4, h5, h6⟩, hp⟩
  rw [if_neg k1]
  by_cases k2 : op.kind = OP_GATHER
  · rw [if_pos k2]
    refine ⟨?_, hg.2⟩
    split_ifs <;>
      first
        | exact addItem_ok ⟨h1, h2, h3, h4, h5, h6⟩ hg.1
        | exact ⟨h1, h2, h3, h4, h5, h6⟩
  rw [if_neg k2]
  by_cases k3 : op.kind = OP_CRAFT
  · rw [if_pos k3]
    exact ⟨craft_item_ok ⟨h1, h2, h3, h4, h5, h6⟩, hp⟩
  rw [if_neg k3]
  by_cases k4 : op.kind = OP_TRADE
  · rw [if_pos k4]
    exact ⟨trade_ok ⟨h1, h2, h3, h4, h5, h6⟩, hp⟩
  rw [if_neg k4]
  by_cases k5 : op.kind = OP_REST
  · rw [if_pos k5]
    refine ⟨⟨h1, h2, ?_, h4, h5, h6⟩, hp⟩
    dsimp only
    split_ifs <;> linarith
  rw [if_neg k5]
  by_cases k6 : op.kind = OP_ROAM
  · rw [if_pos k6]
    refine ⟨⟨h1, h2, ?_, h4, h5, h6⟩, hp⟩
    have hi : (0 : ℚ) ≤ (op.arg_i : ℚ) := by exact_mod_cast harg
    dsimp only
    linarith
  rw [if_neg k6]
  exact ⟨⟨h1, h2, h3, h4, h5, h6⟩, hp⟩

theorem exec_ops_ok {settlements : List Settlement}
    {households : List Household} (ops : List OpDef) :
    ∀ st : Agent × List Int, (∀ op ∈ ops, 0 ≤ op.arg_i) →
      AgentOK st.1 → PoolOK st.2 →
      AgentOK (ops.foldl (exec_op settlements households) st).1
      ∧ PoolOK (ops.foldl (exec_op settlements households) st).2 := by
  induction ops with
  | nil => exact fun st _ h hp => ⟨h, hp⟩
  | cons op rest ih =>
    intro st hops h hp
    simp only [List.foldl_cons]
    have h1 := @exec_op_ok settlements households st op h hp
      (hops op (List.mem_cons_self op rest))
    exact ih _ (fun o ho => hops o (List.mem_cons_of_mem op ho)) h1.1 h1.2

theorem exec_task_ok {settlements : List Settlement}
    {households : List Household} {t : TaskDef} {a : Agent} {pool : List Int}
    (hops : ∀ op ∈ t.ops, 0 ≤ op.arg_i) (h : AgentOK a) (hp : PoolOK pool) :
    AgentOK (exec_task settlements households a pool t).1
    ∧ PoolOK (exec_task settlements households a pool t).2 :=
  exec_ops_ok t.ops (a, pool) hops h hp

theorem choose_task_mem {seed day : Nat} {tv : List VocationDef} {a : Agent}
    {t : TaskDef} (h : choose_task seed day tv a = some t) :
    ∃ voc ∈ tv, t ∈ voc.tasks := by
  unfold choose_task at h
  cases hv : vocGet tv a.vocation_id with
  | none => rw [hv] at h; simp at h
  | some voc =>
    rw [hv] at h
    have hmem : voc ∈ tv := by
      unfold vocGet at hv
      split_ifs at hv
      exact List.getElem?_mem hv
    simp only [] at h
    split_ifs at h
    cases hr : pickRule (Int.emod
        ((rng_u32 seed a.x a.y (day ^^^ 0xC0FFEE) : Nat) : Int)
        (scanRules day a (rng_f01 seed a.x a.y (day ^^^ (a.household_id * 131)))
          voc.rules).1)
        (scanRules day a (rng_f01 seed a.x a.y (day ^^^ (a.household_id * 131)))
          voc.rules).2 with
    | none => rw [hr] at h; simp at h
    | some r =>
      rw [hr] at h
      exact ⟨voc, hmem, List.mem_of_find?_eq_some h⟩

theorem apprenticeship_ok {seed day : Nat} {agents : List Agent}
    {households : List Household} {a : Agent} (h : AgentOK a) :
    AgentOK (apprenticeship seed day agents households a) := by
  obtain ⟨h1, h2, h3, h4, h5, h6⟩ := h
  unfold apprenticeship
  dsimp only
  split_ifs <;> exact ⟨h1, h2, h3, h4, h5, h6⟩

theorem preAgent_ok {seed day : Nat} {agents : List Agent}
    {households : List Household} {a : Agent} (h : AgentOK a) :
    AgentOK (preAgent seed day agents households a) :=
  apprenticeship_ok (eat_ok (driftFatigue_ok (driftHunger_ok (driftAge_ok h))))

theorem stepAgentCore_ok {seed day : Nat} {tv : List VocationDef}
    {settlements : List Settlement} {households : List Household} {i : Nat}
    {agents : List Agent} {pool : List Int} {a : Agent}
    (h : AgentOK a) (hp : PoolOK pool) (hops : OpsOK tv) :
    AgentOK (stepAgentCore seed day tv settlements households i agents pool
      a).1
    ∧ PoolOK (stepAgentCore seed day tv settlements households i agents pool
      a).2 := by
  have h1 : AgentOK (preAgent seed day agents households a) := preAgent_ok h
  unfold stepAgentCore
  dsimp only
  by_cases hs : 0.95 < (preAgent seed day agents households a).hunger
  · rw [if_pos hs]
    exact ⟨starve_ok h1, hp⟩
  rw [if_neg hs]
  by_cases he : 0.90 ≤ (preAgent seed day agents households a).fatigue
  · rw [if_pos he]
    exact ⟨exhaustRest_ok h1, hp⟩
  rw [if_neg he]
  cases hc : choose_task seed day tv (preAgent seed day agents households a)
    with
  | none =>
    simp only [hc]
    obtain ⟨g1, g2, g3, g4, g5, g6⟩ := h1
    by_cases hi : i % 9 = 0
    · rw [if_pos hi]
      exact ⟨trade_ok ⟨g1, g2, by dsimp only; linarith, g4, g5, g6⟩, hp⟩
    · rw [if_neg hi]
      exact ⟨⟨g1, g2, by dsimp only; linarith, g4, g5, g6⟩, hp⟩
  | some t =>
    simp only [hc]
    obtain ⟨voc, hvm, htm⟩ := choose_task_mem hc
    exact exec_task_ok (hops voc hvm t htm) h1 hp

theorem agentStep_ok {seed day : Nat} {tv : List VocationDef}
    {settlements : List Settlement} {households : List Household}
    {st : List Agent × List Int} {i : Nat}
    (hag : ∀ a ∈ st.1, AgentOK a) (hp : PoolOK st.2) (hops : OpsOK tv) :
    (∀ a ∈ (agentStep seed day tv settlements households st i).1, AgentOK a)
    ∧ PoolOK (agentStep seed day tv settlements households st i).2 := by
  obtain ⟨agents, pool⟩ := st
  have hai : AgentOK (agents.getD i default) :=
    getD_prop hag AgentOK_default i
  unfold agentStep
  dsimp only
  split_ifs with hh
  · exact ⟨hag, hp⟩
  · have hc := @stepAgentCore_ok seed day tv settlements households i agents
      pool (agents.getD i default) hai hp hops
    exact ⟨mem_set_of hag hc.1, hc.2⟩

theorem agentsFold_ok {seed day : Nat} {tv : List VocationDef}
    {settlements : List Settlement} {households : List Household}
    (hops : OpsOK tv) (idx : List Nat) :
    ∀ st : List Agent × List Int, (∀ a ∈ st.1, AgentOK a) → PoolOK st.2 →
      (∀ a ∈ (idx.foldl (agentStep seed day tv settlements households)
        st).1, AgentOK a)
      ∧ PoolOK (idx.foldl (agentStep seed day tv settlements households)
        st).2 := by
  induction idx with
  | nil => intro st h hp; exact ⟨h, hp⟩
  | cons i rest ih =>
    intro st h hp
    simp only [List.foldl_cons]
    have h1 := @agentStep_ok seed day tv settlements households st i h hp
      hops
    exact ih _ h1.1 h1.2

theorem pyTrunc_nonneg {q : ℚ} (h : 0 ≤ q) : 0 ≤ pyTrunc q := by
  unfold pyTrunc
  exact Int.tdiv_nonneg (Rat.num_nonneg.mpr h) (Int.natCast_nonneg q.den)

theorem seasonMul_nonneg (season rk : Nat) : 0 ≤ seasonMul season rk := by
  unfold seasonMul
  split_ifs <;> norm_num

theorem regenFold_ok {renew : List ℚ} {season scale : Nat}
    (hr : RenewOK renew) (idx : List Nat) :
    ∀ pool : List Int, PoolOK pool →
      PoolOK (idx.foldl
        (fun p rk =>
          ladd p rk (pyTrunc (qget0 renew rk * seasonMul season rk * 255.0
            * (scale : ℚ))))
        pool) := by
  induction idx with
  | nil => exact fun pool hp => hp
  | cons rk rest ih =>
    intro pool hp
    simp only [List.foldl_cons]
    apply ih
    apply ladd_mem hp
    have h0 : 0 ≤ qget0 renew rk := getD_prop hr (le_refl (0 : ℚ)) rk
    have h1 : 0 ≤ pyTrunc (qget0 renew rk * seasonMul season rk * 255.0
        * (scale : ℚ)) :=
      pyTrunc_nonneg (mul_nonneg (mul_nonneg
        (mul_nonneg h0 (seasonMul_nonneg season rk)) (by norm_num))
        (by positivity))
    have := lget_nonneg hp rk
    omega

theorem regenPool_ok {renew : List ℚ} {season scale : Nat} {pool : List Int}
    (hr : RenewOK renew) (hp : PoolOK pool) :
    PoolOK (regenPool renew season scale pool) := by
  unfold regenPool
  exact regenFold_ok hr (List.range RES_MAX) pool hp

theorem AgentOK_setVoc {a : Agent} {t : Int} (h : AgentOK a) :
    AgentOK { a with vocation_id := t } := by
  obtain ⟨h1, h2, h3, h4, h5, h6⟩ := h
  exact ⟨h1, h2, h3, h4, h5, h6⟩

theorem roleLoop_ok {seed day : Nat} {target : Int} {lim : Nat}
    {households : List Household} (fuel : Nat) :
    ∀ (i switched : Nat) (agents : List Agent), (∀ a ∈ agents, AgentOK a) →
      ∀ a ∈ (roleLoop seed day target lim households fuel i switched
        agents).1, AgentOK a := by
  induction fuel with
  | zero => exact fun i switched agents h => h
  | succ n ih =>
    intro i switched agents h
    unfold roleLoop
    dsimp only
    by_cases hi : i < agents.length
    · rw [if_pos hi]
      try dsimp only
      split_ifs with h1 h2 h3 h4 h5 h6
      · exact ih _ _ _ h
      · exact ih _ _ _ h
      · exact ih _ _ _ h
      · exact ih _ _ _ h
      · exact mem_set_of h (AgentOK_setVoc (getD_prop h AgentOK_default i))
      · exact ih _ _ _
          (mem_set_of h (AgentOK_setVoc (getD_prop h AgentOK_default i)))
      · exact ih _ _ _ h
    · rw [if_neg hi]
      exact h

theorem role_switching_ok {s : Sim} (h : SimOK s) : SimOK (role_switching s) := by
  obtain ⟨ha, hp, ho, hr⟩ := h
  unfold role_switching
  dsimp only
  split_ifs <;>
    first
      | exact ⟨ha, hp, ho, hr⟩
      | exact ⟨roleLoop_ok _ _ _ _ ha, hp, ho, hr⟩

theorem sim_step_ok {s : Sim} (h : SimOK s) : SimOK (sim_step s) := by
  obtain ⟨ha, hp, ho, hr⟩ := h
  unfold sim_step
  dsimp only
  apply role_switching_ok
  have hreg : PoolOK (regenPool s.renew_per_day
      (world_season_kind (s.day + 1)) (max 1000 (s.agents.length * 80))
      s.resources_pool) := regenPool_ok hr hp
  have hf := @agentsFold_ok s.seed (s.day + 1) s.voc_table s.settlements
    s.households ho (List.range s.agents.length)
    (s.agents, regenPool s.renew_per_day (world_season_kind (s.day + 1))
      (max 1000 (s.agents.length * 80)) s.resources_pool) ha hreg
  exact ⟨hf.1, hf.2, ho, hr⟩

theorem runDays_ok {s : Sim} (h : SimOK s) (n : Nat) :
    SimOK (runDays s n) := by
  induction n generalizing s with
  | zero => exact h
  | succ m ih => exact ih (sim_step_ok h)

theorem initAgent_ok (seed : Nat) (tv : List VocationDef) (hc i : Nat) :
    AgentOK (initAgent seed tv hc i) := by
  unfold initAgent
  dsimp only
  refine ⟨?_, ?_, ?_, ?_, ?_, ?_⟩ <;> dsimp only
  · norm_num
  · norm_num
  · norm_num
  · norm_num
  · norm_num
  · intro v hv
    rw [List.eq_of_mem_replicate hv]

theorem sim_init_ok {cfg : ParsedConfig} (hops : OpsOK cfg.voc_table)
    (hrenew : RenewOK (cfgRenew cfg)) : SimOK (sim_init_from_cfg cfg) := by
  unfold sim_init_from_cfg
  dsimp only
  refine ⟨?_, ?_, hops, hrenew⟩
  · intro a ha
    obtain ⟨i, hi, rfl⟩ := List.mem_map.mp ha
    exact initAgent_ok _ _ _ _
  · intro v hv
    obtain ⟨rk, hrk, rfl⟩ := List.mem_map.mp hv
    refine pyTrunc_nonneg ?_
    have h0 : 0 ≤ qget0 (cfgRenew cfg) rk :=
      getD_prop hrenew (le_refl (0 : ℚ)) rk
    have hs : (0 : ℚ) ≤ ((max 1000 (cfg.agent_count * 80) : Int) : ℚ) := by
      have h1000 : (0 : Int) ≤ max 1000 (cfg.agent_count * 80) :=
        le_max_of_le_left (by norm_num)
      exact_mod_cast h1000
    exact mul_nonneg (mul_nonneg (mul_nonneg h0 (by norm_num)) (by norm_num))
      hs

/-- A single unconditional `roam 2000` vocation: the parser accepts it
(`roam` takes an `_to_i32` step count) and its only rule always fires. -/
def roamVoc : VocationDef :=
  ⟨"roamer", [⟨"work", [⟨OP_ROAM, 2000, 0⟩]⟩],
   [⟨"r", { has_prob := true, prob := 1 }, "work", 1⟩]⟩

def roamCfg : ParsedConfig :=
  { agent_count := 1, days := 1, voc_table := [roamVoc] }

/-- Claim C1 (corrected): for every parsed configuration whose op amounts
(`gather`/`craft`/`roam` arguments, parsed by `_to_i32`, which accepts
negative literals) and renew rates are non-negative, every state reachable
by the day stepper from `sim_init_from_cfg` satisfies: each agent's hunger
and health lie in `[0, 1]`, each agent's fatigue is non-negative, and every
inventory count and resource-pool count is non-negative — after every task
execution and every day step.  The claimed upper bound `fatigue ≤ 1` is
false: task execution adds fatigue with no cap (see the `roam`
counterexample). -/
theorem C1_invariants (cfg : ParsedConfig) (hops : OpsOK cfg.voc_table)
    (hrenew : RenewOK (cfgRenew cfg)) (n : Nat) :
    SimOK (runDays (sim_init_from_cfg cfg) n) :=
  runDays_ok (sim_init_ok hops hrenew) n

/-- Counterexample to the literal claim C1: after one day of a single-agent
configuration whose vocation runs an unconditional `roam 2000` task, the
agent's fatigue is `0.10 − 0.08 + 0.001·2000 = 2.02 > 1`. -/
theorem C1_fatigue_cex :
    1 < ((runDays (sim_init_from_cfg roamCfg) 1).agents.getD 0
      default).fatigue := by
  decide

theorem C1_invariants_witness :
    OpsOK e2cfg.voc_table ∧ RenewOK (cfgRenew e2cfg)
    ∧ SimOK (runDays (sim_init_from_cfg e2cfg) 1) :=
  ⟨by decide, by decide, C1_invariants e2cfg (by decide) (by decide) 1⟩

end Bronzesim
